import Mathlib

/-!
Verification model of the LLM-Gateway credential-and-dispatch engine.

The definitions below are a shallow embedding of the Rust sources:

* `src/llm_api/utils/client.rs` — the HTTP executor (`BaseClient::post`,
  `BaseClient::post_stream`, `should_retry`, `calculate_backoff_delay`,
  call-log emission via `create_call_record`);
* `src/llm_api/dispatcher.rs` — the dispatcher (`dispatch`,
  `dispatch_internal`, `try_fallback`, `apply_defaults`, `validate_request`);
* `src/dao/provider_key_pool/preload.rs` — the decrypted key cache, the
  active-key index, the rotation counters and `get_api_key_round_robin`;
* `src/dao/provider_key_pool/crypto.rs` — SHA-256 hashing, AES-256-GCM
  envelope encryption and base64 encoding of key material.

External effects (the wall clock, the reqwest transport, the SQLite pool,
the random nonce source) are passed in as explicit parameters or scripts;
machine floats (`f32` temperatures) are modelled as rationals, which is
exact for every comparison the code performs on non-NaN values.
-/

deriving instance DecidableEq for Except

namespace Gateway

/-! ## HTTP executor: configuration (client.rs 22-152) -/

/-- Timeout configuration; durations carried in milliseconds. -/
structure TimeoutConfig where
  request_timeout : Nat
  connect_timeout : Nat
  read_timeout : Option Nat
deriving Repr, DecidableEq

/-- Retry configuration of the executor (client.rs 61-100). -/
structure RetryConfig where
  max_attempts : Nat
  base_delay : Nat
  max_delay : Nat
  exponential_backoff : Bool
deriving Repr, DecidableEq

/-- Full client configuration (client.rs 103-152); headers and user agent
omitted because no modelled operation reads them. -/
structure ClientConfig where
  timeout : TimeoutConfig
  retry : RetryConfig
deriving Repr, DecidableEq

/-! ## HTTP executor: error type (client.rs 155-203) -/

/-- Mirror of `ClientError`. A reqwest transport error is represented by its
three retriability probes (`is_timeout`, `is_connect`, `is_request`) plus its
display string, which is all the executor ever reads from it. -/
inductive ClientError where
  | timeout (durationMs : Nat)
  | network (isTimeout isConnect isRequest : Bool) (msg : String)
  | retryExhausted (attempts : Nat) (lastError : String)
  | config (message : String)
  | llmApi (message : String) (statusCode : Option Nat)
  | serialization (msg : String)
  | internal (message : String)
deriving Repr, DecidableEq

/-- Rust `Debug` rendering of an `Option<u16>`, used by the `Display`
implementation of `ClientError::LLMApi`. -/
def debugOptionNat : Option Nat → String
  | none => "None"
  | some n => "Some(" ++ toString n ++ ")"

/-- Rendering of `Duration`'s `Debug` output for whole-second and
millisecond values, the only shapes the modelled configurations use. -/
def durationDebug (ms : Nat) : String :=
  if ms % 1000 = 0 ∧ 0 < ms then toString (ms / 1000) ++ "s" else toString ms ++ "ms"

/-- Mirror of `impl Display for ClientError` (client.rs 173-189). -/
def ClientError.display : ClientError → String
  | .timeout d => "Request timeout after " ++ durationDebug d
  | .network _ _ _ m => "Network error: " ++ m
  | .retryExhausted a l => "Retry exhausted after " ++ toString a ++ " attempts: " ++ l
  | .config m => "Configuration error: " ++ m
  | .llmApi m sc => "LLM API error: " ++ m ++ " (status: " ++ debugOptionNat sc ++ ")"
  | .serialization m => "Serialization error: " ++ m
  | .internal m => "Internal error: " ++ m

/-- Mirror of `BaseClient::should_retry` (client.rs 739-751): timeouts and
transport-level failures retry, `5xx` API statuses retry, everything else
(in particular `4xx`) does not. The `_attempt` argument is unused in the
source as well. -/
def should_retry : ClientError → Bool
  | .timeout _ => true
  | .network t c r _ => t || c || r
  | .llmApi _ sc => sc.elim false (fun code => 500 ≤ code)
  | _ => false

/-- Mirror of `BaseClient::calculate_backoff_delay` (client.rs 724-736). -/
def calculate_backoff_delay (cfg : ClientConfig) (attempt : Nat) : Nat :=
  let exponential := cfg.retry.base_delay * 2 ^ (attempt - 1)
  let delay := if cfg.retry.exponential_backoff
    then min exponential cfg.retry.max_delay
    else cfg.retry.base_delay
  min delay cfg.retry.max_delay

/-! ## Request context and call-log records (client.rs 206-298, call_log.rs) -/

/-- Mirror of `RequestContext` (client.rs 206-279). `Instant` timestamps are
outside the model; every other field is carried. `request_id` is assigned
once at construction and no code path reassigns it. -/
structure RequestContext where
  request_id : String
  url : String
  attempt : Nat
  max_attempts : Nat
  retry_reason : Option String
  model_id : Option String
  tokens_output : Int
  is_stream : Bool
deriving Repr, DecidableEq

/-- Mirror of `RequestContext::new` (client.rs 232-246); the fresh UUID is an
input of the model. -/
def RequestContext.init (rid url : String) (maxAttempts : Nat) (isStream : Bool) :
    RequestContext :=
  { request_id := rid, url := url, attempt := 1, max_attempts := maxAttempts,
    retry_reason := none, model_id := none, tokens_output := 0, is_stream := isStream }

/-- Mirror of `RequestContext::start_retry` (client.rs 259-263). -/
def RequestContext.start_retry (ctx : RequestContext) (reason : String) : RequestContext :=
  { ctx with attempt := ctx.attempt + 1, retry_reason := some reason }

/-- Mirror of `RequestContext::add_tokens` (client.rs 254-256). -/
def RequestContext.add_tokens (ctx : RequestContext) (n : Int) : RequestContext :=
  { ctx with tokens_output := ctx.tokens_output + n }

/-- Mirror of `RequestContext::is_final_attempt` (client.rs 276-278). -/
def RequestContext.is_final_attempt (ctx : RequestContext) : Bool :=
  ctx.max_attempts ≤ ctx.attempt

/-- Mirror of the `CallLog` row (dao/call_log/call_log.rs); `created_at` is
set by the database and omitted. -/
structure CallLog where
  id : String
  model_id : Option String
  status_code : Int
  total_duration : Int
  tokens_output : Int
  error_message : Option String
deriving Repr, DecidableEq

/-- Mirror of `BaseClient::create_call_record` (client.rs 898-935): the record
id is the context's stable `request_id`; the wall-clock duration is outside
the model and recorded as 0. -/
def mkCallLog (ctx : RequestContext) (status : Int) (err : Option String) : CallLog :=
  { id := ctx.request_id, model_id := ctx.model_id, status_code := status,
    total_duration := 0, tokens_output := ctx.tokens_output, error_message := err }

/-! ## HTTP executor: the non-streaming `post` loop (client.rs 377-512)

The transport outcome of each attempt is an input script indexed by the
attempt number (the loop sends exactly once per iteration, and
`ctx.attempt` equals the 1-based iteration index throughout). -/

/-- Outcome of one upstream send inside `post`: an HTTP response (any
status) with its body text, a reqwest transport error, or expiry of the
surrounding `tokio::time::timeout`. -/
inductive AttemptOutcome where
  | http (status : Nat) (bodyText : String)
  | netErr (isTimeout isConnect isRequest : Bool) (msg : String)
  | elapsed
deriving Repr, DecidableEq

/-- Model of a `reqwest::Response` as far as `post` exposes it. -/
structure HttpResponse where
  status : Nat
  body : String
deriving Repr, DecidableEq

/-- Aggregate result of one `post`/`post_stream` run: the returned value,
the call-log records written (in order), and the number of upstream sends. -/
structure PostRun (α : Type) where
  result : Except ClientError α
  logs : List CallLog
  sends : Nat
deriving Repr

/-- Mirror of `reqwest::StatusCode::is_success`: 2xx. -/
def isSuccessStatus (status : Nat) : Bool :=
  200 ≤ status ∧ status < 300

/-- Code after the retry loop of `post` (client.rs 495-511): wrap the last
error in `RetryExhausted` and write a status-0 call record. -/
def post_exhausted (ctx : RequestContext) (last : Option ClientError) : PostRun HttpResponse :=
  let finalError := last.getD (.internal "Request failed without specific error")
  let retryError := ClientError.retryExhausted ctx.attempt finalError.display
  { result := .error retryError,
    logs := [mkCallLog ctx 0 (some retryError.display)],
    sends := 0 }

/-- One iteration of the `for _ in 1..=max_attempts` loop of `post`
(client.rs 386-493), recursing on the number of iterations left. Backoff
sleeping has no observable effect in the model and is elided. -/
def post_loop (cfg : ClientConfig) (script : Nat → AttemptOutcome) :
    Nat → RequestContext → Option ClientError → PostRun HttpResponse
  | 0, ctx, last => post_exhausted ctx last
  | remaining + 1, ctx, last =>
    match script ctx.attempt with
    | .http status body =>
      if isSuccessStatus status then
        { result := .ok ⟨status, body⟩, logs := [mkCallLog ctx (Int.ofNat status) none],
          sends := 1 }
      else
        let apiError := ClientError.llmApi body (some status)
        if ¬ should_retry apiError then
          { result := .error apiError,
            logs := [mkCallLog ctx (Int.ofNat status) (some apiError.display)], sends := 1 }
        else if ctx.is_final_attempt then
          let r := post_exhausted ctx (some apiError)
          { r with sends := r.sends + 1 }
        else
          let r := post_loop cfg script remaining
            (ctx.start_retry ("API error: " ++ toString status)) (some apiError)
          { r with sends := r.sends + 1 }
    | .netErr t c rq m =>
      let clientError := ClientError.network t c rq m
      if ¬ should_retry clientError then
        { result := .error clientError,
          logs := [mkCallLog ctx 0 (some clientError.display)], sends := 1 }
      else if ctx.is_final_attempt then
        let r := post_exhausted ctx (some clientError)
        { r with sends := r.sends + 1 }
      else
        let r := post_loop cfg script remaining
          (ctx.start_retry "Network error") (some clientError)
        { r with sends := r.sends + 1 }
    | .elapsed =>
      let timeoutError := ClientError.timeout cfg.timeout.request_timeout
      if ctx.is_final_attempt then
        let r := post_exhausted ctx (some timeoutError)
        { r with sends := r.sends + 1 }
      else
        let r := post_loop cfg script remaining
          (ctx.start_retry "Request timeout") (some timeoutError)
        { r with sends := r.sends + 1 }

/-- Mirror of `BaseClient::post` (client.rs 377-512). `rid` is the UUID the
context is created with; `url` only flows into logging. -/
def post (cfg : ClientConfig) (rid url : String) (script : Nat → AttemptOutcome) :
    PostRun HttpResponse :=
  post_loop cfg script cfg.retry.max_attempts
    (RequestContext.init rid url cfg.retry.max_attempts false) none

/-! ## HTTP executor: the streaming `post_stream` loop (client.rs 515-721) -/

/-- One item pulled from `response.bytes_stream()`: either a chunk of bytes
(already decoded by `from_utf8_lossy` in the source, so carried as a
string) or a transport error. -/
inductive StreamChunk where
  | bytes (s : String)
  | chunkErr (isTimeout isConnect isRequest : Bool) (msg : String)
deriving Repr, DecidableEq

/-- Outcome of one upstream send inside `post_stream`: a response whose body
is a chunk sequence when the status is a success, a transport error, or
expiry of the attempt timeout. -/
inductive StreamAttemptOutcome where
  | http (status : Nat) (bodyText : String) (chunks : List StreamChunk)
  | netErr (isTimeout isConnect isRequest : Bool) (msg : String)
  | elapsed
deriving Repr, DecidableEq

/-- Helper of `splitNewlines`: walk the buffer accumulating the current
line (reversed); each `'\n'` closes a line. -/
def splitNewlinesAux (cur : List Char) : List Char → List (List Char) × List Char
  | [] => ([], cur.reverse)
  | c :: cs =>
    if c = '\n' then
      let (ls, rest) := splitNewlinesAux [] cs
      (cur.reverse :: ls, rest)
    else
      splitNewlinesAux (c :: cur) cs

/-- Decomposition performed by the repeated `buffer.find('\n')` /
`buffer[..i]` / `buffer[i+1..]` slicing of `post_stream` (client.rs
586-588): the complete lines of the buffer in order, and the residue after
the last newline. -/
def splitNewlines (buf : List Char) : List (List Char) × List Char :=
  splitNewlinesAux [] buf

/-- Mirror of `str::starts_with` on character lists. -/
def startsWithChars : List Char → List Char → Bool
  | [], _ => true
  | _ :: _, [] => false
  | a :: as, b :: bs => a = b && startsWithChars as bs

/-- Mirror of `str::contains(pattern)` — substring search. -/
def containsSubstr (s pat : String) : Bool :=
  go pat.data s.data
where
  go (pat : List Char) : List Char → Bool
    | [] => startsWithChars pat []
    | c :: cs => startsWithChars pat (c :: cs) || go pat cs

/-- Result of draining the complete lines out of the rolling buffer. -/
inductive DrainStep where
  | stopped (completed : Bool) (tokens : Int)
  | drained (rest : List Char) (completed : Bool) (tokens : Int)
deriving Repr, DecidableEq

/-- Per-line processing of the inner `while let Some(line_end) =
buffer.find('\n')` loop (client.rs 586-621): each complete trimmed
non-empty line is checked for the `"done":true` marker (which may add
`eval_count` tokens) and handed to the callback. Returns `(some (c, t), _)`
when a `false` callback return stopped the loop, else `(none, (c, t))` with
the final carried state. `evalCount` models the `serde_json` lookup of a
numeric `eval_count` field in the line. -/
def processLines (cb : String → Bool) (evalCount : String → Option Int) :
    List (List Char) → Bool → Int → Option (Bool × Int) × (Bool × Int)
  | [], completed, tokens => (none, (completed, tokens))
  | l :: ls, completed, tokens =>
    let line := (String.mk l).trim
    if line.isEmpty then processLines cb evalCount ls completed tokens
    else
      let hasDone := containsSubstr line "\"done\":true" ||
        containsSubstr line "\"done\": true"
      let completed' := completed || hasDone
      let tokens' := if hasDone then
          match evalCount line with
          | some n => tokens + n
          | none => tokens
        else tokens
      if cb line then processLines cb evalCount ls completed' tokens'
      else (some (completed', tokens'), (completed', tokens'))

/-- Drain all complete lines from the rolling buffer, as the source's inner
while loop does: `stopped` when the callback returned `false` mid-buffer,
else `drained` with the residue after the last newline. -/
def drainLines (cb : String → Bool) (evalCount : String → Option Int)
    (buf : List Char) (completed : Bool) (tokens : Int) : DrainStep :=
  let (ls, rest) := splitNewlines buf
  match processLines cb evalCount ls completed tokens with
  | (some (c, t), _) => .stopped c t
  | (none, (c, t)) => .drained rest c t

/-- Result of consuming the chunk stream of one attempt. -/
inductive ChunkLoopResult where
  | earlyOk (completed : Bool) (tokens : Int)
  | eof (buffer : List Char) (completed : Bool) (tokens : Int)
  | failed (isTimeout isConnect isRequest : Bool) (msg : String) (buffer : List Char)
      (completed : Bool) (tokens : Int)
deriving Repr, DecidableEq

/-- Mirror of the `while let Some(chunk_result) = stream.next()` loop
(client.rs 578-645): bytes are appended to the rolling buffer and drained;
a chunk error surfaces with the state reached so far. -/
def chunkLoop (cb : String → Bool) (evalCount : String → Option Int) :
    List StreamChunk → List Char → Bool → Int → ChunkLoopResult
  | [], buf, comp, tok => .eof buf comp tok
  | .bytes s :: rest, buf, comp, tok =>
    match drainLines cb evalCount (buf ++ s.data) comp tok with
    | .stopped c t => .earlyOk c t
    | .drained b c t => chunkLoop cb evalCount rest b c t
  | .chunkErr t c r m :: _, buf, comp, tok => .failed t c r m buf comp tok

/-- Mirror of the retry loop of `post_stream` (client.rs 529-720). The
call-log behavior is translated exactly as written: terminal API, network
and timeout failures return without writing any record, a drained or
stopped stream writes a record only when the `"done":true` marker was seen
(`stream_completed`), and a retriable mid-stream chunk error on a non-final
attempt exits the chunk loop via `break` into the success epilogue of the
attempt — so the attempt returns `Ok` instead of retrying. -/
def post_stream_loop (cfg : ClientConfig) (script : Nat → StreamAttemptOutcome)
    (cb : String → Bool) (evalCount : String → Option Int) :
    Nat → RequestContext → Bool → Option ClientError → PostRun Unit
  | 0, ctx, _, last =>
    let finalError := last.getD (.internal "Stream request failed without specific error")
    let retryError := ClientError.retryExhausted ctx.attempt finalError.display
    { result := .error retryError,
      logs := [mkCallLog ctx 0 (some retryError.display)], sends := 0 }
  | remaining + 1, ctx, completed, _ =>
    match script ctx.attempt with
    | .http status body chunks =>
      if ¬ isSuccessStatus status then
        let apiError := ClientError.llmApi body (some status)
        if ¬ should_retry apiError || ctx.is_final_attempt then
          { result := .error apiError, logs := [], sends := 1 }
        else
          let r := post_stream_loop cfg script cb evalCount remaining
            (ctx.start_retry ("API error: " ++ toString status)) completed (some apiError)
          { r with sends := r.sends + 1 }
      else
        match chunkLoop cb evalCount chunks [] completed ctx.tokens_output with
        | .earlyOk comp tok =>
          let ctx' := { ctx with tokens_output := tok }
          { result := .ok (), logs := if comp then [mkCallLog ctx' 200 none] else [],
            sends := 1 }
        | .eof _ comp tok =>
          let ctx' := { ctx with tokens_output := tok }
          { result := .ok (), logs := if comp then [mkCallLog ctx' 200 none] else [],
            sends := 1 }
        | .failed t c rq m _ comp tok =>
          let chunkError := ClientError.network t c rq m
          if ¬ should_retry chunkError || ctx.is_final_attempt then
            { result := .error chunkError, logs := [], sends := 1 }
          else
            let ctx' := { (ctx.start_retry "Stream chunk error") with tokens_output := tok }
            { result := .ok (), logs := if comp then [mkCallLog ctx' 200 none] else [],
              sends := 1 }
    | .netErr t c rq m =>
      let clientError := ClientError.network t c rq m
      if ¬ should_retry clientError || ctx.is_final_attempt then
        { result := .error clientError, logs := [], sends := 1 }
      else
        let r := post_stream_loop cfg script cb evalCount remaining
          (ctx.start_retry "Network error") completed (some clientError)
        { r with sends := r.sends + 1 }
    | .elapsed =>
      let timeoutError := ClientError.timeout cfg.timeout.request_timeout
      if ctx.is_final_attempt then
        { result := .error timeoutError, logs := [], sends := 1 }
      else
        let r := post_stream_loop cfg script cb evalCount remaining
          (ctx.start_retry "Request timeout") completed (some timeoutError)
        { r with sends := r.sends + 1 }

/-- Mirror of `BaseClient::post_stream` (client.rs 515-721). -/
def post_stream (cfg : ClientConfig) (rid url : String)
    (script : Nat → StreamAttemptOutcome) (cb : String → Bool)
    (evalCount : String → Option Int) : PostRun Unit :=
  post_stream_loop cfg script cb evalCount cfg.retry.max_attempts
    (RequestContext.init rid url cfg.retry.max_attempts true) false none

/-! ## Dispatcher: data model (dispatcher.rs 26-125) -/

/-- Mirror of the `Provider` enum (dispatcher.rs 27-34). -/
inductive Provider where
  | ollama
  | ali
  | openai
  | claude
  | gemini
deriving Repr, DecidableEq

/-- Mirror of `ToolCall`/`Function` (msg_structure.rs); the JSON argument
map is outside the claims and carried as a flat key list. -/
structure ToolCall where
  id : Option String
  tool_type : Option String
  function_name : String
deriving Repr, DecidableEq

/-- Mirror of `Message` (msg_structure.rs). -/
structure Message where
  role : String
  content : String
  thinking : Option String
  images : Option (List String)
  tool_calls : Option (List ToolCall)
  tool_name : Option String
deriving Repr, DecidableEq

/-- Mirror of `DispatchRequest` (dispatcher.rs 37-52); `f32` fields are
modelled as rationals. -/
structure DispatchRequest where
  provider : Provider
  model : String
  messages : List Message
  stream : Option Bool
  temperature : Option ℚ
  max_tokens : Option Nat
  top_p : Option ℚ
  frequency_penalty : Option ℚ
  presence_penalty : Option ℚ
  stop : Option (List String)
  timeout_ms : Option Nat
  retry_count : Option Nat
  context_window : Option Nat
deriving Repr, DecidableEq

/-- Mirror of `TokenUsage` (dispatcher.rs 68-73). -/
structure TokenUsage where
  prompt_tokens : Nat
  completion_tokens : Nat
  total_tokens : Nat
deriving Repr, DecidableEq

/-- Mirror of `DispatchResponse` (dispatcher.rs 55-65). -/
structure DispatchResponse where
  content : String
  provider : Provider
  model : String
  usage : Option TokenUsage
  finish_reason : Option String
  request_id : Option String
  created_at : String
  total_duration : Option Nat
deriving Repr, DecidableEq

/-- Mirror of `LLMError` (dispatcher.rs 85-96); the wrapped `anyhow` error
is carried as its message. -/
inductive LLMError where
  | unsupportedProvider (p : Provider)
  | modelNotAvailable (m : String)
  | timeout
  | rateLimit
  | network (msg : String)
  | apiError (msg : String)
  | invalidParameters (msg : String)
  | clientError (e : ClientError)
  | anyhowError (msg : String)
deriving Repr, DecidableEq

/-- Mirror of `DispatchConfig` (dispatcher.rs 406-413). -/
structure DispatchConfig where
  default_timeout_ms : Nat
  default_retry_count : Nat
  default_temperature : ℚ
  enable_fallback : Bool
  fallback_providers : List Provider
deriving Repr, DecidableEq

/-- Behavior model of one registered `LLMClientAdapter` trait object: its
advertised model list and the outcome of each successive `generate` call
(indexed by the attempt counter of `dispatch_internal`'s retry loop).
Adapters perform external I/O, so their outcomes are inputs of the model. -/
structure AdapterModel where
  supported_models : List String
  generate : Nat → Except LLMError DispatchResponse

/-- The registration map `clients: HashMap<Provider, adapter>`. -/
def ClientsMap : Type := Provider → Option AdapterModel

/-! ## Dispatcher: operations (dispatcher.rs 517-650)

Each operation also returns the trace of adapter `generate` invocations
(one `Provider` entry per call), which makes "no adapter was invoked"
and "the original provider was re-attempted" provable statements. -/

/-- Mirror of `LLMDispatcher::apply_defaults` (dispatcher.rs 621-631). -/
def apply_defaults (cfg : DispatchConfig) (req : DispatchRequest) : DispatchRequest :=
  { req with
    temperature := some (req.temperature.getD cfg.default_temperature),
    timeout_ms := some (req.timeout_ms.getD cfg.default_timeout_ms),
    retry_count := some (req.retry_count.getD cfg.default_retry_count) }

/-- Mirror of `LLMDispatcher::validate_request` (dispatcher.rs 634-650). -/
def validate_request (req : DispatchRequest) : Except LLMError Unit :=
  if req.messages.isEmpty then
    .error (.invalidParameters "Messages cannot be empty")
  else if req.model.isEmpty then
    .error (.invalidParameters "Model cannot be empty")
  else
    match req.temperature with
    | some t =>
      if t < 0 ∨ 2 < t then
        .error (.invalidParameters "Temperature must be between 0.0 and 2.0")
      else .ok ()
    | none => .ok ()

/-- Mirror of the `for attempt in 0..=retry_count` loop of
`dispatch_internal` (dispatcher.rs 587-600), recursing on the retries left
and carrying the attempt index fed to the adapter. -/
def generate_retry (c : AdapterModel) (p : Provider) :
    Nat → Nat → Except LLMError DispatchResponse × List Provider
  | attempt, 0 =>
    match c.generate attempt with
    | .ok resp => (.ok resp, [p])
    | .error e => (.error e, [p])
  | attempt, r + 1 =>
    match c.generate attempt with
    | .ok resp => (.ok resp, [p])
    | .error _ =>
      let (res, tr) := generate_retry c p (attempt + 1) r
      (res, p :: tr)

/-- Mirror of `LLMDispatcher::dispatch_internal` (dispatcher.rs 573-601). -/
def dispatch_internal (clients : ClientsMap) (cfg : DispatchConfig)
    (req : DispatchRequest) : Except LLMError DispatchResponse × List Provider :=
  match clients req.provider with
  | none => (.error (.unsupportedProvider req.provider), [])
  | some c =>
    if req.model ∈ c.supported_models then
      generate_retry c req.provider 0 (req.retry_count.getD cfg.default_retry_count)
    else
      (.error (.modelNotAvailable req.model), [])

/-- Mirror of `LLMDispatcher::try_fallback` (dispatcher.rs 604-618). The
source mutates `request.provider` in place before each fallback attempt, so
the skip test `*fallback_provider == request.provider` compares against the
provider of the most recently attempted request, not the original one. -/
def try_fallback (clients : ClientsMap) (cfg : DispatchConfig) :
    DispatchRequest → List Provider → LLMError →
    Except LLMError DispatchResponse × List Provider
  | _, [], originalError => (.error originalError, [])
  | req, p :: rest, originalError =>
    if p = req.provider then
      try_fallback clients cfg req rest originalError
    else
      let req' := { req with provider := p }
      match dispatch_internal clients cfg req' with
      | (.ok resp, tr) => (.ok resp, tr)
      | (.error _, tr) =>
        let (res, tr2) := try_fallback clients cfg req' rest originalError
        (res, tr ++ tr2)

/-- Mirror of `LLMDispatcher::dispatch` (dispatcher.rs 517-534). -/
def dispatch (clients : ClientsMap) (cfg : DispatchConfig)
    (req0 : DispatchRequest) : Except LLMError DispatchResponse × List Provider :=
  let req := apply_defaults cfg req0
  match validate_request req with
  | .error e => (.error e, [])
  | .ok _ =>
    match dispatch_internal clients cfg req with
    | (.ok resp, tr) => (.ok resp, tr)
    | (.error e, tr) =>
      if cfg.enable_fallback then
        let (res, tr2) := try_fallback clients cfg req cfg.fallback_providers e
        (res, tr ++ tr2)
      else
        (.error e, tr)

/-! ## Dispatcher: specification-side fallback functions and fixtures -/

/-- Modelled from the claim wording for C4: try each `fallback_providers`
entry in order, skipping any entry equal to the ORIGINAL request's
provider; return the first fallback success, else the original error.
Compared against the source's `try_fallback`. -/
def claimed_fallback (clients : ClientsMap) (cfg : DispatchConfig) (orig : Provider) :
    DispatchRequest → List Provider → LLMError →
    Except LLMError DispatchResponse × List Provider
  | _, [], originalError => (.error originalError, [])
  | req, p :: rest, originalError =>
    if p = orig then claimed_fallback clients cfg orig req rest originalError
    else
      match dispatch_internal clients cfg { req with provider := p } with
      | (.ok resp, tr) => (.ok resp, tr)
      | (.error _, tr) =>
        let (res, tr2) := claimed_fallback clients cfg orig req rest originalError
        (res, tr ++ tr2)

/-- Specification-side fallback sweep written from the amended wording of
C4: an entry is skipped iff it equals the provider of the most recently
attempted request (initially the original provider); the first success is
returned, else the original error. `attempt` abstracts
`dispatch_internal` at a given provider. -/
def fallback_over (attempt : Provider → Except LLMError DispatchResponse × List Provider)
    (originalError : LLMError) :
    Provider → List Provider → Except LLMError DispatchResponse × List Provider
  | _, [] => (.error originalError, [])
  | lastp, p :: rest =>
    if p = lastp then fallback_over attempt originalError lastp rest
    else
      match attempt p with
      | (.ok resp, tr) => (.ok resp, tr)
      | (.error _, tr) =>
        let (res, tr2) := fallback_over attempt originalError p rest
        (res, tr ++ tr2)

/-- Specification-side reading of the amended wording of C6: scan the
fallback providers in order and return the first attempt's success; if no
attempt succeeds, return the original error. `attempt` abstracts
`dispatch_internal` at a given provider. -/
def first_fallback (attempt : Provider → Except LLMError DispatchResponse × List Provider)
    (originalError : LLMError) : List Provider → Except LLMError DispatchResponse
  | [] => .error originalError
  | p :: rest =>
    match (attempt p).1 with
    | .ok resp => .ok resp
    | .error _ => first_fallback attempt originalError rest

/-- Fixture: a user message. -/
def exMessage : Message :=
  { role := "user", content := "hello", thinking := none, images := none,
    tool_calls := none, tool_name := none }

/-- Fixture: a successful Ollama response. -/
def exResponse : DispatchResponse :=
  { content := "hi", provider := .ollama, model := "llama3.2", usage := none,
    finish_reason := some "stop", request_id := none, created_at := "now",
    total_duration := none }

/-- Fixture: an Ollama adapter that always succeeds with `exResponse`. -/
def adapterOllamaOk : AdapterModel :=
  { supported_models := ["llama3.2"], generate := fun _ => .ok exResponse }

/-- Fixture: registration map holding only the succeeding Ollama adapter. -/
def clientsOllamaOnly : ClientsMap :=
  fun p => match p with
  | .ollama => some adapterOllamaOk
  | _ => none

/-- Fixture: dispatch config with fallback enabled towards Ollama and a
zero default retry count. -/
def cfgFallbackOllama : DispatchConfig :=
  { default_timeout_ms := 30000, default_retry_count := 0,
    default_temperature := mkRat 7 10, enable_fallback := true,
    fallback_providers := [.ollama] }

/-- Fixture: a valid request addressed to the unregistered OpenAI
provider. -/
def reqOpenAI : DispatchRequest :=
  { provider := .openai, model := "llama3.2", messages := [exMessage],
    stream := none, temperature := none, max_tokens := none, top_p := none,
    frequency_penalty := none, presence_penalty := none, stop := none,
    timeout_ms := none, retry_count := none, context_window := none }

/-- Fixture: an adapter supporting model `"m"` whose `generate` always
fails with the given message. -/
def adapterFailing (msg : String) : AdapterModel :=
  { supported_models := ["m"], generate := fun _ => .error (.apiError msg) }

/-- Fixture: Ollama and Ali adapters registered, both always failing. -/
def clientsBothFailing : ClientsMap :=
  fun p => match p with
  | .ollama => some (adapterFailing "ollama down")
  | .ali => some (adapterFailing "ali down")
  | _ => none

/-- Fixture: a valid request for model `"m"` on Ollama with no retries. -/
def reqOllamaM : DispatchRequest :=
  { provider := .ollama, model := "m", messages := [exMessage],
    stream := none, temperature := none, max_tokens := none, top_p := none,
    frequency_penalty := none, presence_penalty := none, stop := none,
    timeout_ms := none, retry_count := some 0, context_window := none }

/-- Fixture: a request whose temperature 2.5 exceeds the valid range. -/
def reqHotTemp : DispatchRequest :=
  { reqOpenAI with provider := .ollama, temperature := some (mkRat 5 2) }

/-! ## Crypto: UTF-8 byte encoding (Rust `str::as_bytes` / `String::from_utf8`)

Bytes are plain naturals kept below 256 by construction; boundedness is
proved where the base64 layer needs it. -/

/-- UTF-8 encoding of one Unicode scalar value, as `str::as_bytes`
serializes it. -/
def utf8EncodeChar (c : Char) : List Nat :=
  let n := c.toNat
  if n < 128 then [n]
  else if n < 2048 then [192 + n / 64, 128 + n % 64]
  else if n < 65536 then [224 + n / 4096, 128 + n / 64 % 64, 128 + n % 64]
  else [240 + n / 262144, 128 + n / 4096 % 64, 128 + n / 64 % 64, 128 + n % 64]

/-- Mirror of `str::as_bytes` on the model's byte lists. -/
def strToUtf8 (s : String) : List Nat :=
  s.data.flatMap utf8EncodeChar

/-- Decode one UTF-8 scalar from a lead byte and the following bytes,
rejecting stray continuation bytes, overlong forms, surrogates and
out-of-range values, exactly as `String::from_utf8` validation does.
Returns the scalar and the unconsumed rest. -/
def utf8DecodeOne (b : Nat) (bs : List Nat) : Option (Nat × List Nat) :=
  if b < 128 then some (b, bs)
  else if b < 194 then none
  else if b < 224 then
    match bs with
    | b1 :: rest =>
      if 128 ≤ b1 ∧ b1 < 192 then some ((b - 192) * 64 + (b1 - 128), rest) else none
    | _ => none
  else if b < 240 then
    match bs with
    | b1 :: b2 :: rest =>
      let n := (b - 224) * 4096 + (b1 - 128) * 64 + (b2 - 128)
      if (128 ≤ b1 ∧ b1 < 192) ∧ (128 ≤ b2 ∧ b2 < 192) ∧ 2048 ≤ n ∧
          (n < 55296 ∨ 57343 < n) then
        some (n, rest)
      else none
    | _ => none
  else if b < 245 then
    match bs with
    | b1 :: b2 :: b3 :: rest =>
      let n := (b - 240) * 262144 + (b1 - 128) * 4096 + (b2 - 128) * 64 + (b3 - 128)
      if (128 ≤ b1 ∧ b1 < 192) ∧ (128 ≤ b2 ∧ b2 < 192) ∧ (128 ≤ b3 ∧ b3 < 192) ∧
          65536 ≤ n ∧ n < 1114112 then
        some (n, rest)
      else none
    | _ => none
  else none

/-- Scalar-by-scalar decoding loop; the fuel dominates the byte count (one
scalar consumes at least one byte), so `utf8Decode` below never exhausts
it. -/
def utf8DecodeAux : Nat → List Nat → Option (List Char)
  | _, [] => some []
  | 0, _ :: _ => none
  | fuel + 1, b :: bs =>
    match utf8DecodeOne b bs with
    | none => none
    | some (n, rest) => (utf8DecodeAux fuel rest).map (fun cs => Char.ofNat n :: cs)

/-- Mirror of `String::from_utf8` validation: decode a byte list back into
scalars. -/
def utf8Decode (bs : List Nat) : Option (List Char) :=
  utf8DecodeAux bs.length bs

/-! ## Crypto: SHA-256 (the `sha2` crate behind `generate_key_hash`) -/

/-- Addition on 32-bit words. -/
def add32 (a b : Nat) : Nat := (a + b) % 4294967296

/-- Right rotation of a 32-bit word. -/
def rotr32 (n x : Nat) : Nat := x / 2 ^ n + x % 2 ^ n * 2 ^ (32 - n)

/-- SHA-256 round constants (FIPS 180-4 §4.2.2). -/
def shaK : List Nat :=
  [1116352408, 1899447441, 3049323471, 3921009573, 961987163, 1508970993,
   2453635748, 2870763221, 3624381080, 310598401, 607225278, 1426881987,
   1925078388, 2162078206, 2614888103, 3248222580, 3835390401, 4022224774,
   264347078, 604807628, 770255983, 1249150122, 1555081692, 1996064986,
   2554220882, 2821834349, 2952996808, 3210313671, 3336571891, 3584528711,
   113926993, 338241895, 666307205, 773529912, 1294757372, 1396182291,
   1695183700, 1986661051, 2177026350, 2456956037, 2730485921, 2820302411,
   3259730800, 3345764771, 3516065817, 3600352804, 4094571909, 275423344,
   430227734, 506948616, 659060556, 883997877, 958139571, 1322822218,
   1537002063, 1747873779, 1955562222, 2024104815, 2227730452, 2361852424,
   2428436474, 2756734187, 3204031479, 3329325298]

/-- Working state of the SHA-256 compression function. -/
structure Sha256State where
  a : Nat
  b : Nat
  c : Nat
  d : Nat
  e : Nat
  f : Nat
  g : Nat
  h : Nat
deriving Repr, DecidableEq

/-- SHA-256 initial hash value (FIPS 180-4 §5.3.3). -/
def shaInit : Sha256State :=
  { a := 1779033703, b := 3144134277, c := 1013904242, d := 2773480762,
    e := 1359893119, f := 2600822924, g := 528734635, h := 1541459225 }

/-- Message-schedule extension: append words 16..63. -/
def shaExtend (w : List Nat) : Nat → List Nat
  | 0 => w
  | fuel + 1 =>
    let i := w.length
    let s0Word := w.getD (i - 15) 0
    let s1Word := w.getD (i - 2) 0
    let s0 := rotr32 7 s0Word ^^^ rotr32 18 s0Word ^^^ s0Word / 2 ^ 3
    let s1 := rotr32 17 s1Word ^^^ rotr32 19 s1Word ^^^ s1Word / 2 ^ 10
    shaExtend (w ++ [add32 (add32 (w.getD (i - 16) 0) s0) (add32 (w.getD (i - 7) 0) s1)]) fuel

/-- One round of the SHA-256 compression function. -/
def shaRound (w : List Nat) (i : Nat) (st : Sha256State) : Sha256State :=
  let bigS1 := rotr32 6 st.e ^^^ rotr32 11 st.e ^^^ rotr32 25 st.e
  let ch := (st.e &&& st.f) ^^^ ((st.e ^^^ 4294967295) &&& st.g)
  let temp1 := add32 (add32 (add32 st.h bigS1) (add32 ch (shaK.getD i 0))) (w.getD i 0)
  let bigS0 := rotr32 2 st.a ^^^ rotr32 13 st.a ^^^ rotr32 22 st.a
  let maj := (st.a &&& st.b) ^^^ (st.a &&& st.c) ^^^ (st.b &&& st.c)
  let temp2 := add32 bigS0 maj
  { a := add32 temp1 temp2, b := st.a, c := st.b, d := st.c,
    e := add32 st.d temp1, f := st.e, g := st.f, h := st.g }

/-- The 64 compression rounds, by fuel over the round index. -/
def shaRounds (w : List Nat) : Nat → Nat → Sha256State → Sha256State
  | _, 0, st => st
  | i, fuel + 1, st => shaRounds w (i + 1) fuel (shaRound w i st)

/-- Compress one 16-word block into the chaining state. -/
def shaCompressBlock (st : Sha256State) (block : List Nat) : Sha256State :=
  let w := shaExtend block 48
  let t := shaRounds w 0 64 st
  { a := add32 st.a t.a, b := add32 st.b t.b, c := add32 st.c t.c,
    d := add32 st.d t.d, e := add32 st.e t.e, f := add32 st.f t.f,
    g := add32 st.g t.g, h := add32 st.h t.h }

/-- SHA-256 message padding: `0x80`, zeros, 64-bit big-endian bit length. -/
def shaPad (msg : List Nat) : List Nat :=
  msg ++ 128 :: List.replicate ((64 - (msg.length + 9) % 64) % 64) 0 ++
    List.ofFn (fun i : Fin 8 => 8 * msg.length / 2 ^ (8 * (7 - i.val)) % 256)

/-- Big-endian 4-byte grouping of a padded byte stream into 32-bit words. -/
def bytesToWordsBE : List Nat → List Nat
  | b0 :: b1 :: b2 :: b3 :: rest =>
    (b0 * 16777216 + b1 * 65536 + b2 * 256 + b3) :: bytesToWordsBE rest
  | _ => []

/-- Big-endian bytes of one 32-bit word. -/
def wordBytesBE (w : Nat) : List Nat :=
  [w / 16777216 % 256, w / 65536 % 256, w / 256 % 256, w % 256]

/-- SHA-256 digest of a byte list (32 bytes). -/
def sha256 (msg : List Nat) : List Nat :=
  let words := bytesToWordsBE (shaPad msg)
  let blocks := (List.range (words.length / 16)).map
    (fun i => (words.drop (16 * i)).take 16)
  let st := blocks.foldl shaCompressBlock shaInit
  [st.a, st.b, st.c, st.d, st.e, st.f, st.g, st.h].flatMap wordBytesBE

/-- Lowercase hex digit of a nibble. -/
def hexChar (n : Nat) : Char :=
  "0123456789abcdef".data.getD n 'x'

/-- Lowercase hex string of a byte list, two digits per byte, as the
`{:x}` formatting of a `sha2` digest renders it. -/
def hexOfBytes (bs : List Nat) : List Char :=
  bs.flatMap (fun b => [hexChar (b / 16), hexChar (b % 16)])

/-- Mirror of `generate_key_hash` (crypto.rs 20-25): hex SHA-256 of the
UTF-8 bytes. -/
def generate_key_hash (api_key : String) : String :=
  String.mk (hexOfBytes (sha256 (strToUtf8 api_key)))

/-! ## Crypto: base64 (the `base64` crate's `general_purpose::STANDARD`) -/

/-- The standard base64 alphabet. -/
def b64Alphabet : List Char :=
  "ABCDEFGHIJKLMNOPQRSTUVWXYZabcdefghijklmnopqrstuvwxyz0123456789+/".data

/-- Symbol for a 6-bit value. -/
def b64Char (v : Nat) : Char := b64Alphabet.getD v '?'

/-- Helper of `b64Val`: position of a character in the alphabet. -/
def b64ValAux : List Char → Nat → Char → Option Nat
  | [], _, _ => none
  | a :: as, i, c => if a = c then some i else b64ValAux as (i + 1) c

/-- Value of a base64 symbol, `none` for characters outside the alphabet. -/
def b64Val (c : Char) : Option Nat := b64ValAux b64Alphabet 0 c

/-- Standard padded base64 encoding of a byte list. -/
def b64EncodeBytes : List Nat → List Char
  | b0 :: b1 :: b2 :: rest =>
    b64Char (b0 / 4) :: b64Char (b0 % 4 * 16 + b1 / 16) ::
      b64Char (b1 % 16 * 4 + b2 / 64) :: b64Char (b2 % 64) :: b64EncodeBytes rest
  | [b0, b1] => [b64Char (b0 / 4), b64Char (b0 % 4 * 16 + b1 / 16), b64Char (b1 % 16 * 4), '=']
  | [b0] => [b64Char (b0 / 4), b64Char (b0 % 4 * 16), '=', '=']
  | [] => []

/-- Strict decoding of standard padded base64, as the crate's `decode`
validates it: four-symbol groups, padding only in the final group, and
canonical (zero) trailing bits. -/
def b64DecodeChars : List Char → Option (List Nat)
  | [] => some []
  | c0 :: c1 :: c2 :: c3 :: rest =>
    match b64Val c0, b64Val c1 with
    | some v0, some v1 =>
      if c2 = '=' then
        if c3 = '=' ∧ rest = [] ∧ v1 % 16 = 0 then some [v0 * 4 + v1 / 16] else none
      else
        match b64Val c2 with
        | some v2 =>
          if c3 = '=' then
            if rest = [] ∧ v2 % 4 = 0 then
              some [v0 * 4 + v1 / 16, v1 % 16 * 16 + v2 / 4]
            else none
          else
            match b64Val c3 with
            | some v3 =>
              (b64DecodeChars rest).map
                (fun bs => (v0 * 4 + v1 / 16) :: (v1 % 16 * 16 + v2 / 4) ::
                  (v2 % 4 * 64 + v3) :: bs)
            | none => none
        | none => none
    | _, _ => none
  | _ => none

/-! ## Crypto: AES-256 block cipher (the `aes` crate), computed from the
FIPS-197 definition -/

/-- Multiplication by `x` in GF(2^8) with the AES reduction polynomial. -/
def xtime (b : Nat) : Nat := if b < 128 then b * 2 else b * 2 ^^^ 283

/-- Helper of `gmul`: Russian-peasant GF(2^8) multiplication. -/
def gmulAux : Nat → Nat → Nat → Nat → Nat
  | 0, _, _, acc => acc
  | fuel + 1, a, b, acc =>
    gmulAux fuel (xtime a) (b / 2) (if b % 2 = 1 then acc ^^^ a else acc)

/-- GF(2^8) multiplication. -/
def gmul (a b : Nat) : Nat := gmulAux 8 a b 0

/-- GF(2^8) exponentiation. -/
def gpow (a : Nat) : Nat → Nat
  | 0 => 1
  | n + 1 => gmul a (gpow a n)

/-- GF(2^8) multiplicative inverse (`0 ↦ 0`), via `b ^ 254`. -/
def ginv (b : Nat) : Nat := gpow b 254

/-- Left rotation on 8 bits. -/
def rotl8 (n x : Nat) : Nat := (x * 2 ^ n + x / 2 ^ (8 - n)) % 256

/-- The AES S-box: multiplicative inverse followed by the affine map. -/
def sbox (b : Nat) : Nat :=
  let i := ginv b
  (i ^^^ rotl8 1 i ^^^ rotl8 2 i ^^^ rotl8 3 i ^^^ rotl8 4 i ^^^ 99) % 256

/-- Rotate a 4-byte word left by one byte. -/
def rotWord (w : List Nat) : List Nat := [w.getD 1 0, w.getD 2 0, w.getD 3 0, w.getD 0 0]

/-- Apply the S-box to each byte of a word. -/
def subWord (w : List Nat) : List Nat := w.map sbox

/-- Byte-wise XOR of two 4-byte words. -/
def xorWord (a b : List Nat) : List Nat :=
  List.ofFn (fun i : Fin 4 => a.getD i.val 0 ^^^ b.getD i.val 0)

/-- AES round constant bytes. -/
def rconByte (i : Nat) : Nat := gpow 2 (i - 1)

/-- Helper of `aesKeySchedule`: append expansion words by fuel. -/
def aesExpandAux (ws : List (List Nat)) : Nat → List (List Nat)
  | 0 => ws
  | fuel + 1 =>
    let i := ws.length
    let temp := ws.getD (i - 1) []
    let temp2 :=
      if i % 8 = 0 then xorWord (subWord (rotWord temp)) [rconByte (i / 8), 0, 0, 0]
      else if i % 8 = 4 then subWord temp
      else temp
    aesExpandAux (ws ++ [xorWord (ws.getD (i - 8) []) temp2]) fuel

/-- AES-256 key schedule: 60 round-key words from a 32-byte key. -/
def aesKeySchedule (key : List Nat) : List (List Nat) :=
  aesExpandAux ((List.range 8).map (fun i => (key.drop (4 * i)).take 4)) 52

/-- The 16 bytes of round key `r`. -/
def roundKey (ws : List (List Nat)) (r : Nat) : List Nat :=
  ((ws.drop (4 * r)).take 4).flatMap id

/-- XOR the state with a round key. -/
def addRoundKey (s k : List Nat) : List Nat :=
  List.ofFn (fun i : Fin 16 => s.getD i.val 0 ^^^ k.getD i.val 0)

/-- SubBytes over the whole state. -/
def subBytes (s : List Nat) : List Nat := s.map sbox

/-- ShiftRows on the column-major flat state. -/
def shiftRows (s : List Nat) : List Nat :=
  List.ofFn (fun i : Fin 16 =>
    s.getD (i.val % 4 + 4 * ((i.val / 4 + i.val % 4) % 4)) 0)

/-- MixColumns on one column. -/
def mixColumn (a0 a1 a2 a3 : Nat) : List Nat :=
  [gmul 2 a0 ^^^ gmul 3 a1 ^^^ a2 ^^^ a3,
   a0 ^^^ gmul 2 a1 ^^^ gmul 3 a2 ^^^ a3,
   a0 ^^^ a1 ^^^ gmul 2 a2 ^^^ gmul 3 a3,
   gmul 3 a0 ^^^ a1 ^^^ a2 ^^^ gmul 2 a3]

/-- MixColumns over the whole state. -/
def mixColumns (s : List Nat) : List Nat :=
  (List.range 4).flatMap (fun c =>
    mixColumn (s.getD (4 * c) 0) (s.getD (4 * c + 1) 0)
      (s.getD (4 * c + 2) 0) (s.getD (4 * c + 3) 0))

/-- The middle rounds of AES (SubBytes, ShiftRows, MixColumns,
AddRoundKey), by fuel. -/
def aesRoundsLoop (ws : List (List Nat)) : Nat → Nat → List Nat → List Nat
  | _, 0, s => s
  | r, fuel + 1, s =>
    aesRoundsLoop ws (r + 1) fuel
      (addRoundKey (mixColumns (shiftRows (subBytes s))) (roundKey ws r))

/-- AES-256 forward block encryption (14 rounds); the final `List.ofFn`
with `% 256` is the u8 representation of the 16 output bytes. -/
def aesEncryptBlock (key block : List Nat) : List Nat :=
  let ws := aesKeySchedule key
  let s0 := addRoundKey block (roundKey ws 0)
  let s13 := aesRoundsLoop ws 1 13 s0
  let sf := addRoundKey (shiftRows (subBytes s13)) (roundKey ws 14)
  List.ofFn (fun i : Fin 16 => sf.getD i.val 0 % 256)

/-! ## Crypto: GCM mode (the `aes-gcm` crate, 96-bit nonce, 128-bit tag) -/

/-- Big-endian byte list to natural. -/
def bytesToNatBE (bs : List Nat) : Nat := bs.foldl (fun acc b => acc * 256 + b) 0

/-- 16 big-endian bytes of a 128-bit value. -/
def natToBytes16 (n : Nat) : List Nat :=
  List.ofFn (fun i : Fin 16 => n / 2 ^ (8 * (15 - i.val)) % 256)

/-- 4 big-endian bytes of a 32-bit value. -/
def be32 (n : Nat) : List Nat :=
  [n / 16777216 % 256, n / 65536 % 256, n / 256 % 256, n % 256]

/-- Helper of `gf128Mul`: bit-serial carry-less multiplication with the
GCM reduction constant `R = 0xE1 << 120`. -/
def gf128MulAux : Nat → Nat → Nat → Nat → Nat
  | 0, _, _, z => z
  | fuel + 1, x, v, z =>
    let z2 := if x / 2 ^ 127 % 2 = 1 then z ^^^ v else z
    let v2 := if v % 2 = 1 then v / 2 ^^^ 225 * 2 ^ 120 else v / 2
    gf128MulAux fuel (x * 2 % 2 ^ 128) v2 z2

/-- GF(2^128) multiplication in GCM's bit order. -/
def gf128Mul (x y : Nat) : Nat := gf128MulAux 128 x y 0

/-- GHASH over a list of 128-bit block values. -/
def ghashBlocks (h : Nat) (blocks : List Nat) : Nat :=
  blocks.foldl (fun y b => gf128Mul (y ^^^ b) h) 0

/-- Split a byte list into zero-padded 128-bit block values. -/
def bytesBlocks16 (bs : List Nat) : List Nat :=
  (List.range ((bs.length + 15) / 16)).map (fun i =>
    let blockBytes := (bs.drop (16 * i)).take 16
    bytesToNatBE (blockBytes ++ List.replicate (16 - blockBytes.length) 0))

/-- The GCM authentication tag over a ciphertext (empty associated data):
`E_K(J0) XOR GHASH_H(pad(C) ‖ len64(A)=0 ‖ len64(C))`. -/
def gcmTag (key nonceB ct : List Nat) : List Nat :=
  let h := bytesToNatBE (aesEncryptBlock key (List.replicate 16 0))
  let s := ghashBlocks h (bytesBlocks16 ct ++ [8 * ct.length])
  natToBytes16 (bytesToNatBE (aesEncryptBlock key (nonceB ++ be32 1)) ^^^ s)

/-- CTR keystream starting at counter block `inc32(J0)`; byte `i` comes
from block `i / 16`. -/
def ctrKeystream (key nonceB : List Nat) (n : Nat) : List Nat :=
  List.ofFn (fun i : Fin n =>
    (aesEncryptBlock key (nonceB ++ be32 ((2 + i.val / 16) % 4294967296))).getD
      (i.val % 16) 0)

/-- CTR-mode encryption/decryption (its own inverse). -/
def ctrCrypt (key nonceB data : List Nat) : List Nat :=
  List.zipWith (fun p k => p ^^^ k) data (ctrKeystream key nonceB data.length)

/-- AES-256-GCM encryption: ciphertext followed by the 16-byte tag. -/
def gcmEncrypt (key nonceB pt : List Nat) : List Nat :=
  let ct := ctrCrypt key nonceB pt
  ct ++ gcmTag key nonceB ct

/-- AES-256-GCM decryption: split the trailing tag, recompute it over the
ciphertext, and decrypt only on a match. -/
def gcmDecrypt (key nonceB data : List Nat) : Option (List Nat) :=
  if data.length < 16 then none
  else
    let ct := data.take (data.length - 16)
    let tag := data.drop (data.length - 16)
    if tag = gcmTag key nonceB ct then some (ctrCrypt key nonceB ct) else none

/-! ## Crypto: the key-material operations (crypto.rs) -/

/-- The process-wide 32-byte key constant (crypto.rs 11). -/
def encryptionKey : List Nat := strToUtf8 "my_very_secure_32_byte_secret_k!"

/-- Mirror of `encrypt_api_key` (crypto.rs 35-55): the 12 random nonce
bytes are an input; output is `base64(nonce ‖ ciphertext ‖ tag)`. -/
def encrypt_api_key (api_key : String) (nonce : Fin 12 → Fin 256) : String :=
  let nonceB := List.ofFn (fun i => (nonce i).val)
  String.mk (b64EncodeBytes (nonceB ++ gcmEncrypt encryptionKey nonceB (strToUtf8 api_key)))

/-- Mirror of `decrypt_api_key` (crypto.rs 65-90). -/
def decrypt_api_key (encrypted_data : String) : Except String String :=
  match b64DecodeChars encrypted_data.data with
  | none => .error "Base64 decode failed"
  | some bytes =>
    if bytes.length < 12 then .error "Invalid encrypted data: too short"
    else
      match gcmDecrypt encryptionKey (bytes.take 12) (bytes.drop 12) with
      | none => .error "Decryption failed"
      | some pt =>
        match utf8Decode pt with
        | some cs => .ok (String.mk cs)
        | none => .error "UTF-8 conversion failed"

/-- Mirror of `process_api_key` (crypto.rs 100-104). -/
def process_api_key (api_key : String) (nonce : Fin 12 → Fin 256) : String × String :=
  (generate_key_hash api_key, encrypt_api_key api_key nonce)

/-- Mirror of `verify_key_integrity` (crypto.rs 114-117). -/
def verify_key_integrity (decrypted_key stored_hash : String) : Bool :=
  generate_key_hash decrypted_key == stored_hash

/-! ## Key pool: records, cache state and rotation (preload.rs) -/

/-- Mirror of the `ProviderKeyPool` row (provider_key_pool.rs 7-18). -/
structure ProviderKeyPool where
  id : String
  provider : String
  key_hash : String
  encrypted_key_value : String
  is_active : Bool
  usage_count : Int
  last_used_at : Option String
  rate_limit_per_minute : Option Int
  rate_limit_per_hour : Option Int
  created_at : Option String
deriving Repr, DecidableEq

/-- Mirror of `CachedProviderKeyPool` (preload.rs 22-33). -/
structure CachedProviderKeyPool where
  id : String
  provider : String
  key_hash : String
  decrypted_api_key : String
  is_active : Bool
  usage_count : Int
  last_used_at : Option String
  rate_limit_per_minute : Option Int
  rate_limit_per_hour : Option Int
  created_at : Option String
deriving Repr, DecidableEq

/-- Mirror of `From<&ProviderKeyPool>` (preload.rs 35-50) followed by the
assignment of the decrypted key during preload (preload.rs 86-87). -/
def CachedProviderKeyPool.fromRecord (r : ProviderKeyPool) (key : String) :
    CachedProviderKeyPool :=
  { id := r.id, provider := r.provider, key_hash := r.key_hash,
    decrypted_api_key := key, is_active := r.is_active,
    usage_count := r.usage_count, last_used_at := r.last_used_at,
    rate_limit_per_minute := r.rate_limit_per_minute,
    rate_limit_per_hour := r.rate_limit_per_hour, created_at := r.created_at }

/-- State of the three globals of preload.rs: the decrypted cache keyed by
`provider_key_pool:{provider}:{id}` (JSON serde round-trips are identity
in the model), `ACTIVE_KEY_POOLS` and `ROUND_ROBIN_COUNTERS`. -/
structure KeyPoolState where
  cache : String → String → Option CachedProviderKeyPool
  active_pools : String → Option (List String)
  counters : String → Option Nat

/-- One iteration of the preload loop (preload.rs 70-120): skip records
whose ciphertext fails to decrypt; cache the decrypted entry; append
active ids to the provider's sequence and `or_insert(0)` its counter. -/
def preloadStep
    (acc : (String → String → Option CachedProviderKeyPool) ×
      (String → Option (List String)) × (String → Option Nat))
    (r : ProviderKeyPool) :
    (String → String → Option CachedProviderKeyPool) ×
      (String → Option (List String)) × (String → Option Nat) :=
  match decrypt_api_key r.encrypted_key_value with
  | .error _ => acc
  | .ok key =>
    let (cache, act, ctr) := acc
    let cache2 := fun p i =>
      if p = r.provider ∧ i = r.id then some (CachedProviderKeyPool.fromRecord r key)
      else cache p i
    if r.is_active then
      (cache2,
       fun p => if p = r.provider then some ((act r.provider).getD [] ++ [r.id]) else act p,
       fun p => if p = r.provider then some ((ctr r.provider).getD 0) else ctr p)
    else (cache2, act, ctr)

/-- Mirror of `preload_provider_key_pools_to_cache` (preload.rs 53-141):
fold the records, then replace the active index and counters wholesale. -/
def preload_provider_key_pools_to_cache
    (cache0 : String → String → Option CachedProviderKeyPool)
    (records : List ProviderKeyPool) : KeyPoolState :=
  let acc := records.foldl preloadStep (cache0, fun _ => none, fun _ => none)
  { cache := acc.1, active_pools := acc.2.1, counters := acc.2.2 }

/-- Mirror of `get_api_key_round_robin` (preload.rs 209-260), sequential
semantics: read the active list, `load` the counter (returning `None` via
the `?` when no counter entry exists), select `counter % len`, then
`fetch_add(1)` in a separate step, then consult the cache and require the
entry to still be active. -/
def get_api_key_round_robin (st : KeyPoolState) (provider : String) :
    Option (String × String) × KeyPoolState :=
  match st.active_pools provider with
  | none => (none, st)
  | some active_key_ids =>
    if active_key_ids.isEmpty then (none, st)
    else
      match st.counters provider with
      | none => (none, st)
      | some counter =>
        let selected_index := counter % active_key_ids.length
        let selected_key_id := active_key_ids.getD selected_index ""
        let st2 := { st with
          counters := fun q => if q = provider then some (counter + 1) else st.counters q }
        match st2.cache provider selected_key_id with
        | some cached =>
          if cached.is_active then (some (cached.decrypted_api_key, selected_key_id), st2)
          else (none, st2)
        | none => (none, st2)

/-- Iterate `n` sequential selector calls, collecting the results. -/
def rrCalls (st : KeyPoolState) (provider : String) :
    Nat → List (Option (String × String)) × KeyPoolState
  | 0 => ([], st)
  | n + 1 =>
    let (out, st2) := get_api_key_round_robin st provider
    let (outs, st3) := rrCalls st2 provider n
    (out :: outs, st3)

/-- Mirror of `reset_round_robin_counter` (preload.rs 303-309): stores 0
when a counter entry exists, and does nothing otherwise — it never
creates an entry. -/
def reset_round_robin_counter (st : KeyPoolState) (provider : String) : KeyPoolState :=
  match st.counters provider with
  | some _ =>
    { st with counters := fun q => if q = provider then some 0 else st.counters q }
  | none => st

/-- Mirror of `reload_provider_api_keys` (preload.rs 267-297): replace (or
remove, when empty) the provider's active list with the ids the store
returned, then reset the counter. -/
def reload_provider_api_keys (st : KeyPoolState) (provider : String)
    (key_ids : List String) : KeyPoolState :=
  let act := fun q =>
    if q = provider then (if key_ids.isEmpty then none else some key_ids)
    else st.active_pools q
  reset_round_robin_counter { st with active_pools := act } provider

/-- Mirror of `get_round_robin_counter` (preload.rs 318-323). -/
def get_round_robin_counter (st : KeyPoolState) (provider : String) : Nat :=
  (st.counters provider).getD 0

/-- Mirror of `get_active_key_count` (preload.rs 332-337). -/
def get_active_key_count (st : KeyPoolState) (provider : String) : Nat :=
  ((st.active_pools provider).getD []).length

/-! ## Key pool: small-step concurrency model of the selector's counter
accesses

The source performs the counter `load` (preload.rs 230) and the
`fetch_add(1)` (preload.rs 241) as two separate atomic operations. Each of
`T` concurrent callers is modelled as a task taking two shared-memory
steps; a schedule lists task steps in execution order — a task's first
occurrence is its `load`, its second the `fetch_add`. -/

/-- Execute a schedule over the shared counter; `loaded` records each
task's loaded value. -/
def runSched (T : Nat) : List (Fin T) → Nat → (Fin T → Option Nat) →
    Nat × (Fin T → Option Nat)
  | [], ctr, loaded => (ctr, loaded)
  | t :: rest, ctr, loaded =>
    match loaded t with
    | none => runSched T rest ctr (fun u => if u = t then some ctr else loaded u)
    | some _ => runSched T rest (ctr + 1) loaded

/-- The schedule in which each call's `load` and `fetch_add` run back to
back (the single-atomic-step execution the claim asserts). -/
def serializedSched (T : Nat) (order : List (Fin T)) : List (Fin T) :=
  order.flatMap (fun t => [t, t])

/-- The key id a task returns, given its loaded counter value, under a
fixed active sequence and a fully active cache. -/
def schedId (seqKeys : List String) (loadedVal : Nat) : String :=
  seqKeys.getD (loadedVal % seqKeys.length) ""

/-- The multiset (listed in task order) of key ids the `T` tasks return,
given their loaded counter values. -/
def schedTaskIds (T : Nat) (seqKeys : List String) (loaded : Fin T → Option Nat) :
    List String :=
  (List.finRange T).map (fun t => schedId seqKeys ((loaded t).getD 0))

/-- Fixture: an active cached Ali key. -/
def cachedAli1 : CachedProviderKeyPool :=
  { id := "k1", provider := "ali", key_hash := "h1", decrypted_api_key := "key-1",
    is_active := true, usage_count := 0, last_used_at := none,
    rate_limit_per_minute := none, rate_limit_per_hour := none, created_at := none }

/-- Fixture: a second active cached Ali key. -/
def cachedAli2 : CachedProviderKeyPool :=
  { cachedAli1 with id := "k2", key_hash := "h2", decrypted_api_key := "key-2" }

/-- Fixture: a post-preload pool state with two active Ali keys and a zero
counter. -/
def stRot : KeyPoolState :=
  { cache := fun p id =>
      if p = "ali" ∧ id = "k1" then some cachedAli1
      else if p = "ali" ∧ id = "k2" then some cachedAli2
      else none,
    active_pools := fun p => if p = "ali" then some ["k1", "k2"] else none,
    counters := fun p => if p = "ali" then some 0 else none }

/-- Fixture: an inactive Ali record whose ciphertext is not valid base64,
so preload skips it. -/
def staleRecord : ProviderKeyPool :=
  { id := "k9", provider := "ali", key_hash := "h9", encrypted_key_value := "!!!",
    is_active := false, usage_count := 0, last_used_at := none,
    rate_limit_per_minute := none, rate_limit_per_hour := none, created_at := none }

/-! ## Facts about `post` -/

/-- Invariant proof for the all-503 script: with `remaining` iterations left
and `ctx.attempt + remaining = max_attempts + 1`, the loop sends once per
remaining iteration and ends in `RetryExhausted` carrying the display of the
last 503 error. -/
theorem post_loop_all_503 (cfg : ClientConfig) (body : Nat → String) (k : Nat) :
    ∀ remaining ctx last, ctx.max_attempts = k → ctx.attempt + remaining = k + 1 →
    1 ≤ remaining →
    (post_loop cfg (fun n => .http 503 (body n)) remaining ctx last).result =
        .error (.retryExhausted k ((ClientError.llmApi (body k) (some 503)).display)) ∧
    (post_loop cfg (fun n => .http 503 (body n)) remaining ctx last).sends = remaining := by
  intro remaining
  induction remaining with
  | zero => intro ctx last _ _ h; omega
  | succ r ih =>
    intro ctx last hmax hsum _
    by_cases hfin : ctx.is_final_attempt
    · have hr : r = 0 := by
        simp only [RequestContext.is_final_attempt, decide_eq_true_eq] at hfin
        omega
      subst hr
      have hattempt : ctx.attempt = k := by omega
      simp only [post_loop, isSuccessStatus, should_retry, post_exhausted]
      norm_num [hfin, hattempt, ClientError.display, Option.getD]
    · have hr : 1 ≤ r := by
        simp only [RequestContext.is_final_attempt, decide_eq_true_eq, not_le] at hfin
        omega
      have step := ih (ctx.start_retry ("API error: " ++ toString 503))
        (some (ClientError.llmApi (body ctx.attempt) (some 503)))
        (by simpa [RequestContext.start_retry] using hmax)
        (by simp only [RequestContext.start_retry]; omega) hr
      simp only [post_loop, isSuccessStatus, should_retry, Option.elim]
      norm_num [hfin]
      exact ⟨step.1, by omega⟩

/-- Claim C3: an executor configured with `max_attempts = k ≥ 1`, fed HTTP
503 on every attempt, issues exactly `k` upstream sends and returns
`RetryExhausted` with `attempts = k` carrying the display of the last
concrete `LLMApi{status: 503}` error. -/
theorem retry_budget_exhausted_on_503 (cfg : ClientConfig) (rid url : String)
    (body : Nat → String) (hk : 1 ≤ cfg.retry.max_attempts) :
    (post cfg rid url (fun n => .http 503 (body n))).sends = cfg.retry.max_attempts ∧
    (post cfg rid url (fun n => .http 503 (body n))).result =
      .error (.retryExhausted cfg.retry.max_attempts
        ((ClientError.llmApi (body cfg.retry.max_attempts) (some 503)).display)) := by
  have h := post_loop_all_503 cfg body cfg.retry.max_attempts cfg.retry.max_attempts
    (RequestContext.init rid url cfg.retry.max_attempts false) none rfl
    (by simp only [RequestContext.init]; omega) hk
  exact ⟨h.2, h.1⟩

/-- Witness for C3: three attempts of 503 give three sends and
`RetryExhausted`. -/
theorem retry_budget_exhausted_on_503_witness :
    1 ≤ (3 : Nat) ∧
    (post ⟨⟨180000, 30000, none⟩, ⟨3, 1000, 30000, true⟩⟩ "req-1" "http://u"
        (fun _ => .http 503 "overloaded")).sends = 3 ∧
    (post ⟨⟨180000, 30000, none⟩, ⟨3, 1000, 30000, true⟩⟩ "req-1" "http://u"
        (fun _ => .http 503 "overloaded")).result =
      .error (.retryExhausted 3 ((ClientError.llmApi "overloaded" (some 503)).display)) := by
  refine ⟨by decide, ?_⟩
  have h := retry_budget_exhausted_on_503 ⟨⟨180000, 30000, none⟩, ⟨3, 1000, 30000, true⟩⟩
    "req-1" "http://u" (fun _ => "overloaded") (by decide)
  exact ⟨h.1, h.2⟩

/-- Claim C5: a 4xx response on the first attempt is terminal — exactly one
upstream send, no retry, and the returned error is `LLMApi` carrying the
status. -/
theorem no_retry_on_4xx (cfg : ClientConfig) (rid url : String)
    (script : Nat → AttemptOutcome) (status : Nat) (body : String)
    (hs : script 1 = .http status body) (h4 : 400 ≤ status) (h5 : status < 500)
    (hk : 1 ≤ cfg.retry.max_attempts) :
    (post cfg rid url script).sends = 1 ∧
    (post cfg rid url script).result = .error (.llmApi body (some status)) := by
  obtain ⟨m, hm⟩ : ∃ m, cfg.retry.max_attempts = m + 1 :=
    ⟨cfg.retry.max_attempts - 1, by omega⟩
  have hns : isSuccessStatus status = false := by
    simp only [isSuccessStatus, decide_eq_false_iff_not, not_and, not_lt]
    omega
  have hnr : should_retry (ClientError.llmApi body (some status)) = false := by
    simp only [should_retry, Option.elim, decide_eq_false_iff_not, not_le]
    omega
  simp [post, hm, post_loop, RequestContext.init, hs, hns, hnr]

/-- Witness for C5: a single HTTP 400 under a 3-attempt budget. -/
theorem no_retry_on_4xx_witness :
    ((fun _ => AttemptOutcome.http 400 "bad request" : Nat → AttemptOutcome) 1 =
        .http 400 "bad request") ∧ 400 ≤ 400 ∧ 400 < 500 ∧
    (post ⟨⟨180000, 30000, none⟩, ⟨3, 1000, 30000, true⟩⟩ "req-2" "http://u"
        (fun _ => .http 400 "bad request")).sends = 1 ∧
    (post ⟨⟨180000, 30000, none⟩, ⟨3, 1000, 30000, true⟩⟩ "req-2" "http://u"
        (fun _ => .http 400 "bad request")).result =
      .error (.llmApi "bad request" (some 400)) := by
  refine ⟨rfl, by decide, by decide, ?_⟩
  exact no_retry_on_4xx ⟨⟨180000, 30000, none⟩, ⟨3, 1000, 30000, true⟩⟩ "req-2" "http://u"
    (fun _ => .http 400 "bad request") 400 "bad request" rfl (by decide) (by decide) (by decide)

/-! ## Call-log emission facts -/

/-- Supporting invariant: the non-streaming `post` writes exactly one
call-log record on every run, and its `id` is the context's stable
`request_id`, whatever the script of attempt outcomes. -/
theorem post_loop_one_log (cfg : ClientConfig) (script : Nat → AttemptOutcome) :
    ∀ remaining ctx last,
    (post_loop cfg script remaining ctx last).logs.length = 1 ∧
    ∀ l ∈ (post_loop cfg script remaining ctx last).logs, l.id = ctx.request_id := by
  intro remaining
  induction remaining with
  | zero =>
    intro ctx last
    refine ⟨rfl, ?_⟩
    simp [post_loop, post_exhausted, mkCallLog]
  | succ r ih =>
    intro ctx last
    rcases hsc : script ctx.attempt with ⟨status, body⟩ | ⟨t, c, rq, m⟩ | _ <;>
      simp only [post_loop, hsc] <;>
      split_ifs <;>
      first
      | (refine ⟨rfl, ?_⟩; simp [post_exhausted, mkCallLog])
      | (refine ⟨(ih _ _).1, fun l hl => ?_⟩
         have h2 := (ih _ _).2 l hl
         simpa [RequestContext.start_retry] using h2)

/-- Theorem form of the `post` half of C1: one record, stable id. -/
theorem post_one_log (cfg : ClientConfig) (rid url : String)
    (script : Nat → AttemptOutcome) :
    (post cfg rid url script).logs.length = 1 ∧
    ∀ l ∈ (post cfg rid url script).logs, l.id = rid := by
  exact post_loop_one_log cfg script cfg.retry.max_attempts
    (RequestContext.init rid url cfg.retry.max_attempts false) none

/-- Claim C1, failing input: `post_stream` receiving a terminal HTTP 400
returns the `LLMApi` error without writing any call-log record, while
`post` on the same outcome writes exactly one record carrying the stable
request id — so the claim's guarantee fails on `post_stream`'s terminal
non-retriable failure path (and the source's design notes flag the missing
streaming record as a bug). -/
theorem call_log_gap_on_stream_terminal_failure :
    (post_stream ⟨⟨180000, 30000, none⟩, ⟨3, 1000, 30000, true⟩⟩ "rid-s" "http://u"
        (fun _ => .http 400 "Bad Request" []) (fun _ => true) (fun _ => none)).result =
      .error (.llmApi "Bad Request" (some 400)) ∧
    (post_stream ⟨⟨180000, 30000, none⟩, ⟨3, 1000, 30000, true⟩⟩ "rid-s" "http://u"
        (fun _ => .http 400 "Bad Request" []) (fun _ => true) (fun _ => none)).logs = [] ∧
    (post ⟨⟨180000, 30000, none⟩, ⟨3, 1000, 30000, true⟩⟩ "rid-s" "http://u"
        (fun _ => .http 400 "Bad Request")).logs =
      [{ id := "rid-s", model_id := none, status_code := 400, total_duration := 0,
         tokens_output := 0,
         error_message := some "LLM API error: Bad Request (status: Some(400))" }] := by
  refine ⟨rfl, rfl, ?_⟩
  decide

/-! ## Dispatcher facts -/

/-- Every adapter invocation recorded by `generate_retry` names the
provider it was called for. -/
theorem generate_retry_trace (c : AdapterModel) (p : Provider) :
    ∀ remaining attempt q, q ∈ (generate_retry c p attempt remaining).2 → q = p := by
  intro remaining
  induction remaining with
  | zero =>
    intro attempt q hq
    rcases hg : c.generate attempt with e | resp <;>
      simp [generate_retry, hg] at hq <;> exact hq
  | succ r ih =>
    intro attempt q hq
    rcases hg : c.generate attempt with e | resp
    · simp only [generate_retry, hg] at hq
      rcases List.mem_cons.mp hq with h | h
      · exact h
      · exact ih (attempt + 1) q h
    · simp [generate_retry, hg] at hq
      exact hq

/-- Adapter invocations of `dispatch_internal` all name the request's
provider, and occur only when an adapter is registered for it. -/
theorem dispatch_internal_trace (clients : ClientsMap) (cfg : DispatchConfig)
    (req : DispatchRequest) (q : Provider) :
    q ∈ (dispatch_internal clients cfg req).2 → q = req.provider ∧ clients q ≠ none := by
  intro hq
  rcases hc : clients req.provider with _ | c
  · simp [dispatch_internal, hc] at hq
  · simp only [dispatch_internal, hc] at hq
    split at hq
    · have hqp := generate_retry_trace c req.provider _ _ q hq
      subst hqp
      exact ⟨rfl, by simp [hc]⟩
    · simp at hq

/-- Every adapter invocation made during the fallback sweep targets a
provider that has a registered adapter. -/
theorem try_fallback_trace (clients : ClientsMap) (cfg : DispatchConfig) :
    ∀ fbs req e q, q ∈ (try_fallback clients cfg req fbs e).2 → clients q ≠ none := by
  intro fbs
  induction fbs with
  | nil => intro req e q hq; simp [try_fallback] at hq
  | cons p rest ih =>
    intro req e q hq
    simp only [try_fallback] at hq
    split at hq
    · exact ih req e q hq
    · rcases hdi : dispatch_internal clients cfg { req with provider := p } with ⟨res, tr⟩
      rw [hdi] at hq
      rcases res with e' | r
      · simp only [List.mem_append] at hq
        rcases hq with h | h
        · have h2 := dispatch_internal_trace clients cfg { req with provider := p } q
            (by rw [hdi]; exact h)
          exact h2.2
        · exact ih { req with provider := p } e q h
      · have h2 := dispatch_internal_trace clients cfg { req with provider := p } q
          (by rw [hdi]; exact hq)
        exact h2.2

/-- The fallback sweep returns either some fallback's success or exactly
the original error. -/
theorem try_fallback_result (clients : ClientsMap) (cfg : DispatchConfig) :
    ∀ fbs req e,
    (try_fallback clients cfg req fbs e).1 = .error e ∨
    ∃ r, (try_fallback clients cfg req fbs e).1 = .ok r := by
  intro fbs
  induction fbs with
  | nil => intro req e; left; rfl
  | cons p rest ih =>
    intro req e
    simp only [try_fallback]
    split
    · exact ih req e
    · rcases hdi : dispatch_internal clients cfg { req with provider := p } with ⟨res, tr⟩
      rcases res with e' | r
      · simpa using ih { req with provider := p } e
      · right; exact ⟨r, rfl⟩

/-- Claim C7: a request with empty `messages`, an empty `model`, or an
effective temperature (after defaults) outside `[0, 2]` is rejected by
`dispatch` with `InvalidParameters`; no adapter is invoked and no fallback
is attempted (the trace is empty). -/
theorem validation_rejects_invalid_requests (clients : ClientsMap) (cfg : DispatchConfig)
    (req : DispatchRequest)
    (h : req.messages = [] ∨ req.model = "" ∨
      (req.temperature.getD cfg.default_temperature < 0 ∨
        2 < req.temperature.getD cfg.default_temperature)) :
    ∃ msg, dispatch clients cfg req = (.error (.invalidParameters msg), []) := by
  by_cases h1 : req.messages.isEmpty
  · exact ⟨"Messages cannot be empty",
      by simp [dispatch, validate_request, apply_defaults, h1]⟩
  · by_cases h2 : req.model.isEmpty
    · exact ⟨"Model cannot be empty",
        by simp [dispatch, validate_request, apply_defaults, h1, h2]⟩
    · have h3 : req.temperature.getD cfg.default_temperature < 0 ∨
          2 < req.temperature.getD cfg.default_temperature := by
        rcases h with h | h | h
        · exact absurd (by simp [h] : req.messages.isEmpty = true) h1
        · exact absurd (by rw [h]; rfl : req.model.isEmpty = true) h2
        · exact h
      exact ⟨"Temperature must be between 0.0 and 2.0",
        by simp [dispatch, validate_request, apply_defaults, h1, h2, h3]⟩

/-- Witness for C7: temperature 2.5 is rejected with `InvalidParameters`
and an empty invocation trace. -/
theorem validation_rejects_invalid_requests_witness :
    (reqHotTemp.temperature.getD cfgFallbackOllama.default_temperature < 0 ∨
      2 < reqHotTemp.temperature.getD cfgFallbackOllama.default_temperature) ∧
    ∃ msg, dispatch clientsOllamaOnly cfgFallbackOllama reqHotTemp =
      (.error (.invalidParameters msg), []) :=
  ⟨Or.inr (by decide),
    validation_rejects_invalid_requests clientsOllamaOnly cfgFallbackOllama reqHotTemp
      (Or.inr (Or.inr (Or.inr (by decide))))⟩

/-- If every attempt in the list fails, the first-success scan returns the
original error. -/
theorem first_fallback_all_fail
    (attempt : Provider → Except LLMError DispatchResponse × List Provider)
    (e : LLMError) :
    ∀ fbs, (∀ p ∈ fbs, ∀ r, (attempt p).1 ≠ .ok r) →
    first_fallback attempt e fbs = .error e := by
  intro fbs
  induction fbs with
  | nil => intro _; rfl
  | cons p rest ih =>
    intro h
    rcases ha : (attempt p).1 with e2 | r
    · simp only [first_fallback, ha]
      exact ih (fun q hq r => h q (List.mem_cons_of_mem p hq) r)
    · exact absurd ha (h p (List.mem_cons_self p rest) r)

/-- A success of the first-success scan is the FIRST success of the list:
the list splits at the succeeding provider and every earlier attempt
fails. -/
theorem first_fallback_ok_split
    (attempt : Provider → Except LLMError DispatchResponse × List Provider)
    (e : LLMError) :
    ∀ fbs r, first_fallback attempt e fbs = .ok r →
    ∃ pre p post, fbs = pre ++ p :: post ∧
      (∀ q ∈ pre, ∀ s, (attempt q).1 ≠ .ok s) ∧ (attempt p).1 = .ok r := by
  intro fbs
  induction fbs with
  | nil => intro r h; exact absurd h (by simp [first_fallback])
  | cons p rest ih =>
    intro r h
    rcases ha : (attempt p).1 with e2 | s
    · simp only [first_fallback, ha] at h
      obtain ⟨pre, q, post, hsplit, hpre, hq⟩ := ih r h
      refine ⟨p :: pre, q, post, by rw [hsplit]; rfl, ?_, hq⟩
      intro x hx s
      rcases List.mem_cons.mp hx with hx | hx
      · rw [hx]; simp [ha]
      · exact hpre x hx s
    · simp only [first_fallback, ha, Except.ok.injEq] at h
      refine ⟨[], p, rest, rfl, by simp, ?_⟩
      rw [ha, h]

/-- An error result of the first-success scan is the original error and
certifies that every attempt in the list failed. -/
theorem first_fallback_error_all
    (attempt : Provider → Except LLMError DispatchResponse × List Provider)
    (e : LLMError) :
    ∀ fbs e2, first_fallback attempt e fbs = .error e2 →
    e2 = e ∧ ∀ p ∈ fbs, ∀ r, (attempt p).1 ≠ .ok r := by
  intro fbs
  induction fbs with
  | nil =>
    intro e2 h
    simp only [first_fallback, Except.error.injEq] at h
    exact ⟨h.symm, by simp⟩
  | cons p rest ih =>
    intro e2 h
    rcases ha : (attempt p).1 with e3 | s
    · simp only [first_fallback, ha] at h
      obtain ⟨he, hall⟩ := ih e2 h
      refine ⟨he, ?_⟩
      intro q hq r
      rcases List.mem_cons.mp hq with hq | hq
      · rw [hq]; simp [ha]
      · exact hall q hq r
    · simp [first_fallback, ha] at h

/-- When the current request's own attempt fails — as it always does for an
unregistered provider — the source's skip rule never drops an entry whose
attempt would succeed, and the sweep's result is exactly the first
fallback success, else the original error. -/
theorem try_fallback_first (clients : ClientsMap) (cfg : DispatchConfig) :
    ∀ fbs req e, (∀ r, (dispatch_internal clients cfg req).1 ≠ .ok r) →
    (try_fallback clients cfg req fbs e).1 =
      first_fallback (fun q => dispatch_internal clients cfg { req with provider := q })
        e fbs := by
  intro fbs
  induction fbs with
  | nil => intro req e _; rfl
  | cons p rest ih =>
    intro req e hfail
    by_cases hp : p = req.provider
    · have hattp : dispatch_internal clients cfg { req with provider := p } =
          dispatch_internal clients cfg req := by
        rw [hp]
      rcases hres : (dispatch_internal clients cfg req).1 with e2 | r
      · simp only [try_fallback, if_pos hp, first_fallback, hattp, hres]
        exact ih req e hfail
      · exact absurd hres (hfail r)
    · simp only [try_fallback, if_neg hp, first_fallback]
      rcases hdi : dispatch_internal clients cfg { req with provider := p } with ⟨res, tr⟩
      rcases res with e2 | r
      · have h2 := ih { req with provider := p } e (by
          intro r hr
          rw [hdi] at hr
          simp at hr)
        exact h2
      · rfl

/-- Counterexample to C6 as stated: a request naming the unregistered
OpenAI provider, with fallback enabled towards a succeeding Ollama
adapter, returns Ollama's success — not `UnsupportedProvider`. -/
theorem unsupported_provider_fallback_counterexample :
    clientsOllamaOnly reqOpenAI.provider = none ∧
    cfgFallbackOllama.enable_fallback = true ∧
    cfgFallbackOllama.fallback_providers = [.ollama] ∧
    (dispatch clientsOllamaOnly cfgFallbackOllama reqOpenAI).1 = .ok exResponse :=
  ⟨rfl, rfl, rfl, rfl⟩

/-- Claim C6 as amended: a request naming an unregistered provider is
never retried (that provider's adapter does not exist and is never
invoked), but the `UnsupportedProvider` error IS subjected to provider
fallback when `enable_fallback` is set: the fallback providers are tried,
the caller receives the first fallback success (all earlier attempts
failed), and the caller receives `UnsupportedProvider` exactly when no
fallback attempt succeeds. -/
theorem unsupported_provider_subject_to_fallback (clients : ClientsMap)
    (cfg : DispatchConfig) (req : DispatchRequest)
    (hval : validate_request (apply_defaults cfg req) = .ok ())
    (hun : clients req.provider = none)
    (hfb : cfg.enable_fallback = true) :
    req.provider ∉ (dispatch clients cfg req).2 ∧
    (dispatch clients cfg req).1 =
      first_fallback
        (fun p => dispatch_internal clients cfg { apply_defaults cfg req with provider := p })
        (.unsupportedProvider req.provider) cfg.fallback_providers ∧
    (∀ r, (dispatch clients cfg req).1 = .ok r →
      ∃ pre p post, cfg.fallback_providers = pre ++ p :: post ∧
        (∀ q ∈ pre, ∀ s,
          (dispatch_internal clients cfg
            { apply_defaults cfg req with provider := q }).1 ≠ .ok s) ∧
        (dispatch_internal clients cfg
          { apply_defaults cfg req with provider := p }).1 = .ok r) ∧
    ((dispatch clients cfg req).1 = .error (.unsupportedProvider req.provider) ↔
      ∀ p ∈ cfg.fallback_providers, ∀ r,
        (dispatch_internal clients cfg
          { apply_defaults cfg req with provider := p }).1 ≠ .ok r) := by
  have hfail : ∀ r, (dispatch_internal clients cfg (apply_defaults cfg req)).1 ≠ .ok r := by
    intro r hr
    simp [dispatch_internal, apply_defaults, hun] at hr
  have hdi : dispatch_internal clients cfg (apply_defaults cfg req) =
      (.error (.unsupportedProvider req.provider), []) := by
    simp [dispatch_internal, hun, apply_defaults]
  rcases htf : try_fallback clients cfg (apply_defaults cfg req) cfg.fallback_providers
      (.unsupportedProvider req.provider) with ⟨res, tr⟩
  have hdisp : dispatch clients cfg req = (res, tr) := by
    simp only [dispatch, hval, hdi, hfb, if_true, htf]
    rfl
  have hfirst : res =
      first_fallback
        (fun p => dispatch_internal clients cfg { apply_defaults cfg req with provider := p })
        (.unsupportedProvider req.provider) cfg.fallback_providers := by
    have h := try_fallback_first clients cfg cfg.fallback_providers (apply_defaults cfg req)
      (.unsupportedProvider req.provider) hfail
    rw [htf] at h
    exact h
  refine ⟨?_, ?_, ?_, ?_⟩
  · rw [hdisp]
    intro hmem
    exact try_fallback_trace clients cfg cfg.fallback_providers _ _ req.provider
      (by rw [htf]; exact hmem) hun
  · rw [hdisp]
    exact hfirst
  · intro r hr
    rw [hdisp] at hr
    exact first_fallback_ok_split _ _ cfg.fallback_providers r (hfirst ▸ hr)
  · constructor
    · intro he
      rw [hdisp] at he
      exact (first_fallback_error_all _ (.unsupportedProvider req.provider)
        cfg.fallback_providers (.unsupportedProvider req.provider) (hfirst ▸ he)).2
    · intro hall
      rw [hdisp, hfirst]
      exact first_fallback_all_fail _ _ cfg.fallback_providers hall

/-- Witness for C6's amended theorem at the OpenAI-request fixture. -/
theorem unsupported_provider_subject_to_fallback_witness :
    validate_request (apply_defaults cfgFallbackOllama reqOpenAI) = .ok () ∧
    clientsOllamaOnly reqOpenAI.provider = none ∧
    cfgFallbackOllama.enable_fallback = true ∧
    (reqOpenAI.provider ∉ (dispatch clientsOllamaOnly cfgFallbackOllama reqOpenAI).2 ∧
      (dispatch clientsOllamaOnly cfgFallbackOllama reqOpenAI).1 =
        first_fallback
          (fun p => dispatch_internal clientsOllamaOnly cfgFallbackOllama
            { apply_defaults cfgFallbackOllama reqOpenAI with provider := p })
          (.unsupportedProvider reqOpenAI.provider) cfgFallbackOllama.fallback_providers ∧
      (∀ r, (dispatch clientsOllamaOnly cfgFallbackOllama reqOpenAI).1 = .ok r →
        ∃ pre p post, cfgFallbackOllama.fallback_providers = pre ++ p :: post ∧
          (∀ q ∈ pre, ∀ s,
            (dispatch_internal clientsOllamaOnly cfgFallbackOllama
              { apply_defaults cfgFallbackOllama reqOpenAI with provider := q }).1 ≠ .ok s) ∧
          (dispatch_internal clientsOllamaOnly cfgFallbackOllama
            { apply_defaults cfgFallbackOllama reqOpenAI with provider := p }).1 = .ok r) ∧
      ((dispatch clientsOllamaOnly cfgFallbackOllama reqOpenAI).1 =
          .error (.unsupportedProvider reqOpenAI.provider) ↔
        ∀ p ∈ cfgFallbackOllama.fallback_providers, ∀ r,
          (dispatch_internal clientsOllamaOnly cfgFallbackOllama
            { apply_defaults cfgFallbackOllama reqOpenAI with provider := p }).1 ≠ .ok r)) :=
  ⟨by decide, rfl, rfl,
    unsupported_provider_subject_to_fallback clientsOllamaOnly cfgFallbackOllama reqOpenAI
      (by decide) rfl rfl⟩

/-- Counterexample to C4 as stated: with fallback list `[ali, ollama]` and
original provider `ollama`, the source's `try_fallback` re-attempts the
original provider (its skip test compares against the mutated request),
while the claim's skip-the-original rule would attempt only `ali`. The
original error is still what is returned. -/
theorem fallback_skips_original_counterexample :
    reqOllamaM.provider = .ollama ∧
    (try_fallback clientsBothFailing cfgFallbackOllama reqOllamaM [.ali, .ollama]
        (.apiError "orig")).2 = [.ali, .ollama] ∧
    (claimed_fallback clientsBothFailing cfgFallbackOllama .ollama reqOllamaM
        [.ali, .ollama] (.apiError "orig")).2 = [.ali] ∧
    (try_fallback clientsBothFailing cfgFallbackOllama reqOllamaM [.ali, .ollama]
        (.apiError "orig")).1 = .error (.apiError "orig") :=
  ⟨rfl, rfl, rfl, rfl⟩

/-- Claim C4 as amended: the source's fallback sweep equals the
specification-side sweep that skips an entry iff it equals the provider of
the most recently attempted request (initially the original provider),
returns the first fallback success, and otherwise the original error. -/
theorem try_fallback_refines_skip_last (clients : ClientsMap) (cfg : DispatchConfig) :
    ∀ fbs req e,
    try_fallback clients cfg req fbs e =
      fallback_over (fun p => dispatch_internal clients cfg { req with provider := p })
        e req.provider fbs := by
  intro fbs
  induction fbs with
  | nil => intro req e; rfl
  | cons p rest ih =>
    intro req e
    simp only [try_fallback, fallback_over]
    by_cases hp : p = req.provider
    · simp only [hp, if_pos rfl]
      exact ih req e
    · simp only [if_neg hp]
      rcases hdi : dispatch_internal clients cfg { req with provider := p } with ⟨res, tr⟩
      rcases res with e' | r
      · have h2 := ih { req with provider := p } e
        rw [h2]
      · rfl

/-! ## Key pool facts: sequential rotation (C2) -/

/-- Single-call behavior of the sequential selector on a consistent state:
it returns the key cached at position `counter % L` of the active sequence
and bumps only the provider's counter. -/
theorem rr_call_step (st : KeyPoolState) (p : String) (seq : List String) (c : Nat)
    (hap : st.active_pools p = some seq) (hne : seq ≠ [])
    (hctr : st.counters p = some c)
    (hcache : ∀ id ∈ seq, ∃ e, st.cache p id = some e ∧ e.is_active = true) :
    ∃ e, st.cache p (seq.getD (c % seq.length) "") = some e ∧
      get_api_key_round_robin st p =
        (some (e.decrypted_api_key, seq.getD (c % seq.length) ""),
         { st with counters := fun q => if q = p then some (c + 1) else st.counters q }) := by
  have hlen : 0 < seq.length := List.length_pos.mpr hne
  have hidx : c % seq.length < seq.length := Nat.mod_lt _ hlen
  have hmem : seq.getD (c % seq.length) "" ∈ seq := by
    rw [List.getD_eq_getElem seq "" hidx]
    exact List.getElem_mem hidx
  obtain ⟨e, he, hact⟩ := hcache _ hmem
  refine ⟨e, he, ?_⟩
  simp only [get_api_key_round_robin, hap, hctr, List.isEmpty_iff]
  rw [if_neg hne]
  simp only [he, hact, if_pos]

/-- Iterated form: call `i` of `n` sequential calls returns the id at
position `(c + i) % L`, and the final state has counter `c + n` with cache
and active index untouched. -/
theorem rr_calls_formula (p : String) (seq : List String)
    (hne : seq ≠ []) :
    ∀ n st c, st.active_pools p = some seq → st.counters p = some c →
    (∀ id ∈ seq, ∃ e, st.cache p id = some e ∧ e.is_active = true) →
    (∀ i, i < n →
      ∃ e, st.cache p (seq.getD ((c + i) % seq.length) "") = some e ∧
        (rrCalls st p n).1.getD i none =
          some (e.decrypted_api_key, seq.getD ((c + i) % seq.length) "")) ∧
    (rrCalls st p n).2.counters p = some (c + n) ∧
    (rrCalls st p n).2.active_pools = st.active_pools ∧
    (rrCalls st p n).2.cache = st.cache := by
  intro n
  induction n with
  | zero =>
    intro st c hap hctr hcache
    exact ⟨fun i hi => absurd hi (by omega), by simpa [rrCalls] using hctr, rfl, rfl⟩
  | succ m ih =>
    intro st c hap hctr hcache
    obtain ⟨e, he, hstep⟩ := rr_call_step st p seq c hap hne hctr hcache
    have hstep2 := ih { st with counters := fun q => if q = p then some (c + 1) else st.counters q }
      (c + 1) hap (by simp) hcache
    refine ⟨?_, ?_, ?_, ?_⟩
    · intro i hi
      rcases i with _ | j
      · refine ⟨e, by simpa using he, ?_⟩
        simp only [rrCalls, hstep]
        simpa using hstep.symm ▸ rfl
      · obtain ⟨e2, he2, hv⟩ := (hstep2.1) j (by omega)
        refine ⟨e2, ?_, ?_⟩
        · simpa [Nat.add_assoc, Nat.add_comm 1 j] using he2
        · simp only [rrCalls, hstep]
          simpa [Nat.add_assoc, Nat.add_comm 1 j] using hv
    · simp only [rrCalls, hstep]
      simpa [Nat.add_assoc, Nat.add_comm 1 m] using hstep2.2.1
    · simp only [rrCalls, hstep]
      simpa using hstep2.2.2.1
    · simp only [rrCalls, hstep]
      exact hstep2.2.2.2

/-- The window of ids predicted over `L` calls is the sequence rotated by
`c % L`. -/
theorem map_range_mod_eq_rotate (seq : List String) (c : Nat) (hne : seq ≠ []) :
    (List.range seq.length).map (fun i => seq.getD ((c + i) % seq.length) "") =
      seq.rotate (c % seq.length) := by
  have hlen : 0 < seq.length := List.length_pos.mpr hne
  apply List.ext_getElem
  · simp [List.length_rotate]
  · intro n h1 h2
    have hn : n < seq.length := by simpa using h1
    rw [List.getElem_map, List.getElem_range, List.getElem_rotate]
    have hidx : (c + n) % seq.length < seq.length := Nat.mod_lt _ hlen
    rw [List.getD_eq_getElem seq "" hidx]
    congr 1
    rw [Nat.add_mod c n, Nat.add_mod n (c % seq.length),
      Nat.mod_eq_of_lt (Nat.mod_lt c hlen),
      Nat.add_comm (c % seq.length) (n % seq.length)]

/-- Claim C2: on a consistent post-preload state with `L ≥ 1` distinct
active key ids and no reload or cache mutation, `L` consecutive sequential
selector calls return the active ids in (cyclic) sequence order starting
at `counter % L` — each id exactly once, the window being a rotation of
the active sequence — and the `(L+1)`-th call returns the same id as the
first. -/
theorem rotation_coverage (st : KeyPoolState) (p : String) (seq : List String) (c : Nat)
    (hap : st.active_pools p = some seq) (hne : seq ≠ [])
    (hctr : st.counters p = some c) (hnodup : seq.Nodup)
    (hcache : ∀ id ∈ seq, ∃ e, st.cache p id = some e ∧ e.is_active = true) :
    (∀ i, i < seq.length →
      ∃ key, (rrCalls st p (seq.length + 1)).1.getD i none =
        some (key, seq.getD ((c + i) % seq.length) "")) ∧
    ((List.range seq.length).map (fun i => seq.getD ((c + i) % seq.length) "")).Perm seq ∧
    ((List.range seq.length).map (fun i => seq.getD ((c + i) % seq.length) "")).Nodup ∧
    (∃ k1 k2,
      (rrCalls st p (seq.length + 1)).1.getD 0 none =
        some (k1, seq.getD (c % seq.length) "") ∧
      (rrCalls st p (seq.length + 1)).1.getD seq.length none =
        some (k2, seq.getD (c % seq.length) "")) := by
  have h := rr_calls_formula p seq hne (seq.length + 1) st c hap hctr hcache
  have hperm : ((List.range seq.length).map
      (fun i => seq.getD ((c + i) % seq.length) "")).Perm seq := by
    rw [map_range_mod_eq_rotate seq c hne]
    exact List.rotate_perm seq (c % seq.length)
  refine ⟨?_, hperm, (hperm.nodup_iff).mpr hnodup, ?_⟩
  · intro i hi
    obtain ⟨e, _, hv⟩ := h.1 i (by omega)
    exact ⟨e.decrypted_api_key, hv⟩
  · obtain ⟨e0, _, hv0⟩ := h.1 0 (by omega)
    obtain ⟨eL, _, hvL⟩ := h.1 seq.length (by omega)
    refine ⟨e0.decrypted_api_key, eL.decrypted_api_key, by simpa using hv0, ?_⟩
    rw [hvL, Nat.add_mod_right]

/-- Witness for C2 at the two-key fixture state. -/
theorem rotation_coverage_witness :
    stRot.active_pools "ali" = some ["k1", "k2"] ∧
    stRot.counters "ali" = some 0 ∧
    ((∀ i, i < (["k1", "k2"] : List String).length →
      ∃ key, (rrCalls stRot "ali" ((["k1", "k2"] : List String).length + 1)).1.getD i none =
        some (key, (["k1", "k2"] : List String).getD
          ((0 + i) % (["k1", "k2"] : List String).length) "")) ∧
    ((List.range (["k1", "k2"] : List String).length).map
      (fun i => (["k1", "k2"] : List String).getD
        ((0 + i) % (["k1", "k2"] : List String).length) "")).Perm ["k1", "k2"] ∧
    ((List.range (["k1", "k2"] : List String).length).map
      (fun i => (["k1", "k2"] : List String).getD
        ((0 + i) % (["k1", "k2"] : List String).length) "")).Nodup ∧
    (∃ k1 k2,
      (rrCalls stRot "ali" ((["k1", "k2"] : List String).length + 1)).1.getD 0 none =
        some (k1, (["k1", "k2"] : List String).getD
          (0 % (["k1", "k2"] : List String).length) "") ∧
      (rrCalls stRot "ali" ((["k1", "k2"] : List String).length + 1)).1.getD
          (["k1", "k2"] : List String).length none =
        some (k2, (["k1", "k2"] : List String).getD
          (0 % (["k1", "k2"] : List String).length) ""))) := by
  refine ⟨rfl, rfl, ?_⟩
  refine rotation_coverage stRot "ali" ["k1", "k2"] 0 rfl (by decide) rfl (by decide) ?_
  intro id hid
  rcases List.mem_cons.mp hid with h | h
  · exact ⟨cachedAli1, by rw [h]; rfl, rfl⟩
  · rcases List.mem_cons.mp h with h2 | h2
    · exact ⟨cachedAli2, by rw [h2]; rfl, rfl⟩
    · cases h2

/-! ## Key pool facts: the two-step counter access (C9) -/

/-- A task not appearing in a schedule keeps its loaded value. -/
theorem runSched_loaded_of_not_mem (T : Nat) :
    ∀ sched ctr (loaded : Fin T → Option Nat) (t : Fin T), t ∉ sched →
    (runSched T sched ctr loaded).2 t = loaded t := by
  intro sched
  induction sched with
  | nil => intro ctr loaded t _; rfl
  | cons u rest ih =>
    intro ctr loaded t ht
    have htu : t ≠ u := fun h => ht (h ▸ List.mem_cons_self u rest)
    have htr : t ∉ rest := fun h => ht (List.mem_cons_of_mem u h)
    rcases hl : loaded u with _ | v
    · simp only [runSched, hl]
      rw [ih _ _ t htr]
      simp [htu]
    · simp only [runSched, hl]
      exact ih _ _ t htr

/-- Serialized execution (each call's `load` and `fetch_add` back to back)
hands the tasks the counter values `ctr, ctr+1, …` in execution order. -/
theorem runSched_serialized_loop (T : Nat) :
    ∀ (order : List (Fin T)) ctr (loaded : Fin T → Option Nat),
    order.Nodup → (∀ t ∈ order, loaded t = none) →
    (runSched T (serializedSched T order) ctr loaded).1 = ctr + order.length ∧
    order.map (fun t => ((runSched T (serializedSched T order) ctr loaded).2 t).getD 0) =
      List.range' ctr order.length := by
  intro order
  induction order with
  | nil => intro ctr loaded _ _; exact ⟨rfl, rfl⟩
  | cons t rest ih =>
    intro ctr loaded hnd hnone
    have hser : serializedSched T (t :: rest) = t :: t :: serializedSched T rest := by
      simp [serializedSched]
    have hload : loaded t = none := hnone t (List.mem_cons_self t rest)
    have hrun : runSched T (serializedSched T (t :: rest)) ctr loaded =
        runSched T (serializedSched T rest) (ctr + 1)
          (fun u => if u = t then some ctr else loaded u) := by
      rw [hser]
      simp [runSched, hload]
    have htrest : t ∉ rest := (List.nodup_cons.mp hnd).1
    have hih := ih (ctr + 1) (fun u => if u = t then some ctr else loaded u)
      (List.nodup_cons.mp hnd).2
      (fun u hu => by
        have : u ≠ t := fun h => htrest (h ▸ hu)
        simp [this, hnone u (List.mem_cons_of_mem t hu)])
    have htser : t ∉ serializedSched T rest := by
      intro h
      rcases List.mem_flatMap.mp h with ⟨u, hu, hmem⟩
      rcases List.mem_cons.mp hmem with h2 | h2
      · exact htrest (h2 ▸ hu)
      · rcases List.mem_cons.mp h2 with h3 | h3
        · exact htrest (h3 ▸ hu)
        · cases h3
    constructor
    · rw [hrun, hih.1]
      simp
      omega
    · rw [hrun, List.map_cons]
      rw [runSched_loaded_of_not_mem T _ _ _ t htser, hih.2, List.length_cons,
        List.range'_succ]
      simp

/-- Counterexample to C9 as stated: with two keys, counter 0 and the
interleaving load₀ load₁ add₀ add₁ (possible because the source's `load`
and `fetch_add` are separate atomic operations), both tasks read counter
0 and return the same id, so the returned multiset is not the claimed
window of two consecutive positions. -/
theorem rotation_atomicity_counterexample :
    schedTaskIds 2 ["a", "b"] (runSched 2 [0, 1, 0, 1] 0 (fun _ => none)).2 = ["a", "a"] ∧
    (List.range' 0 2).map (schedId ["a", "b"]) = ["a", "b"] ∧
    ¬ (["a", "a"] : List String).Perm ["a", "b"] := by
  exact ⟨rfl, rfl, by decide⟩

/-- Claim C9 as amended: the counter read and increment are two separate
atomic operations, so overlapping callers can obtain equal indices; when
each call's load and increment execute back to back (one call at a time,
in any order), `T` calls obtain the counter values `c … c+T-1` and the
multiset of returned ids equals the claimed multiset of positions
`c, …, c+T-1 (mod L)` of the active sequence. -/
theorem rotation_atomicity_serialized (T : Nat) (seqKeys : List String) (c : Nat)
    (order : List (Fin T)) (horder : order.Perm (List.finRange T)) :
    (runSched T (serializedSched T order) c (fun _ => none)).1 = c + T ∧
    (schedTaskIds T seqKeys
      ((runSched T (serializedSched T order) c (fun _ => none)).2)).Perm
      ((List.range' c T).map (schedId seqKeys)) := by
  have hnd : order.Nodup := (horder.nodup_iff).mpr (List.nodup_finRange T)
  have hlen : order.length = T := by simpa using horder.length_eq
  have hloop := runSched_serialized_loop T order c (fun _ => none) hnd (fun _ _ => rfl)
  constructor
  · rw [hloop.1, hlen]
  · have hmap : order.map (fun t => schedId seqKeys
        (((runSched T (serializedSched T order) c (fun _ => none)).2 t).getD 0)) =
        (List.range' c T).map (schedId seqKeys) := by
      rw [show (fun t => schedId seqKeys
          (((runSched T (serializedSched T order) c (fun _ => none)).2 t).getD 0)) =
          (schedId seqKeys) ∘
            (fun t => (((runSched T (serializedSched T order) c (fun _ => none)).2 t).getD 0))
        from rfl]
      rw [← List.map_map, hloop.2, hlen]
    have h5 := (horder.map (fun t => schedId seqKeys
      (((runSched T (serializedSched T order) c (fun _ => none)).2 t).getD 0))).symm
    exact hmap ▸ h5

/-- Witness for C9's amended theorem: two tasks serialized in the order
task 1 then task 0, starting from counter 5. -/
theorem rotation_atomicity_serialized_witness :
    (([1, 0] : List (Fin 2)).Perm (List.finRange 2)) ∧
    ((runSched 2 (serializedSched 2 [1, 0]) 5 (fun _ => none)).1 = 5 + 2 ∧
      (schedTaskIds 2 ["a", "b"]
        ((runSched 2 (serializedSched 2 [1, 0]) 5 (fun _ => none)).2)).Perm
        ((List.range' 5 2).map (schedId ["a", "b"]))) :=
  ⟨by decide, rotation_atomicity_serialized 2 ["a", "b"] 5 [1, 0] (by decide)⟩

/-! ## Key pool facts: counters never created after a no-active preload (C10) -/

/-- Folding the preload records never creates a counter entry for a
provider all of whose records are inactive. -/
theorem preload_fold_counters_none (p : String) :
    ∀ (records : List ProviderKeyPool)
    (acc : (String → String → Option CachedProviderKeyPool) ×
      (String → Option (List String)) × (String → Option Nat)),
    (∀ r ∈ records, r.provider = p → r.is_active = false) →
    acc.2.2 p = none → ((records.foldl preloadStep acc).2.2) p = none := by
  intro records
  induction records with
  | nil => intro acc _ h; exact h
  | cons r rest ih =>
    intro acc hrec hacc
    rw [List.foldl_cons]
    refine ih (preloadStep acc r) (fun s hs => hrec s (List.mem_cons_of_mem r hs)) ?_
    rcases hdec : decrypt_api_key r.encrypted_key_value with e | key
    · simpa [preloadStep, hdec] using hacc
    · rcases acc with ⟨cache, act, ctr⟩
      rcases hact : r.is_active with _ | _
      · simpa [preloadStep, hdec, hact] using hacc
      · have hp : r.provider ≠ p := by
          intro h
          have := hrec r (List.mem_cons_self r rest) h
          rw [hact] at this
          cases this
        have hps : ¬ p = r.provider := fun h => hp h.symm
        simp only [preloadStep, hdec, hact]
        simpa [hps] using hacc

/-- Claim C10 (implicit behavior): when preload ran with no active record
for a provider, no rotation counter exists for it; a later reload installs
a non-empty active list but only resets an existing counter, never
creating one, so every subsequent selector call returns `None` and leaves
the state unchanged. -/
theorem stale_counter_after_reload
    (cache0 : String → String → Option CachedProviderKeyPool)
    (records : List ProviderKeyPool) (p : String) (ids : List String)
    (hrec : ∀ r ∈ records, r.provider = p → r.is_active = false)
    (hids : ids ≠ []) :
    (preload_provider_key_pools_to_cache cache0 records).counters p = none ∧
    (reload_provider_api_keys (preload_provider_key_pools_to_cache cache0 records)
      p ids).counters p = none ∧
    (reload_provider_api_keys (preload_provider_key_pools_to_cache cache0 records)
      p ids).active_pools p = some ids ∧
    ∀ n, (rrCalls (reload_provider_api_keys
        (preload_provider_key_pools_to_cache cache0 records) p ids) p n).1 =
      List.replicate n none ∧
      (rrCalls (reload_provider_api_keys
        (preload_provider_key_pools_to_cache cache0 records) p ids) p n).2 =
      reload_provider_api_keys (preload_provider_key_pools_to_cache cache0 records) p ids := by
  have h0 : (preload_provider_key_pools_to_cache cache0 records).counters p = none := by
    simp only [preload_provider_key_pools_to_cache]
    exact preload_fold_counters_none p records (cache0, fun _ => none, fun _ => none) hrec rfl
  have h1 : reload_provider_api_keys (preload_provider_key_pools_to_cache cache0 records)
      p ids = { preload_provider_key_pools_to_cache cache0 records with
        active_pools := fun q =>
          if q = p then (if ids.isEmpty then none else some ids)
          else (preload_provider_key_pools_to_cache cache0 records).active_pools q } := by
    simp only [reload_provider_api_keys, reset_round_robin_counter, h0]
  have h2 : (reload_provider_api_keys (preload_provider_key_pools_to_cache cache0 records)
      p ids).counters p = none := by rw [h1]; exact h0
  have h3 : (reload_provider_api_keys (preload_provider_key_pools_to_cache cache0 records)
      p ids).active_pools p = some ids := by
    rw [h1]
    simp [List.isEmpty_iff, hids]
  refine ⟨h0, h2, h3, ?_⟩
  have hcall : get_api_key_round_robin (reload_provider_api_keys
      (preload_provider_key_pools_to_cache cache0 records) p ids) p =
      (none, reload_provider_api_keys
        (preload_provider_key_pools_to_cache cache0 records) p ids) := by
    simp only [get_api_key_round_robin, h3, h2, List.isEmpty_iff]
    rw [if_neg hids]
  intro n
  induction n with
  | zero => exact ⟨rfl, rfl⟩
  | succ m ihm =>
    refine ⟨?_, ?_⟩
    · simp only [rrCalls, hcall]
      simp [ihm.1, List.replicate_succ]
    · simp only [rrCalls, hcall]
      simpa using ihm.2

/-- Witness for C10: one inactive Ali record whose ciphertext preload
cannot even base64-decode, then a reload installing one id. -/
theorem stale_counter_after_reload_witness :
    (∀ r ∈ [staleRecord], r.provider = "ali" → r.is_active = false) ∧
    (["k1"] : List String) ≠ [] ∧
    ((preload_provider_key_pools_to_cache (fun _ _ => none) [staleRecord]).counters
      "ali" = none ∧
    (reload_provider_api_keys (preload_provider_key_pools_to_cache (fun _ _ => none)
      [staleRecord]) "ali" ["k1"]).counters "ali" = none ∧
    (reload_provider_api_keys (preload_provider_key_pools_to_cache (fun _ _ => none)
      [staleRecord]) "ali" ["k1"]).active_pools "ali" = some ["k1"] ∧
    ∀ n, (rrCalls (reload_provider_api_keys
        (preload_provider_key_pools_to_cache (fun _ _ => none) [staleRecord])
        "ali" ["k1"]) "ali" n).1 = List.replicate n none ∧
      (rrCalls (reload_provider_api_keys
        (preload_provider_key_pools_to_cache (fun _ _ => none) [staleRecord])
        "ali" ["k1"]) "ali" n).2 =
      reload_provider_api_keys (preload_provider_key_pools_to_cache
        (fun _ _ => none) [staleRecord]) "ali" ["k1"]) :=
  ⟨by decide, by decide,
    stale_counter_after_reload (fun _ _ => none) [staleRecord] "ali" ["k1"]
      (by decide) (by decide)⟩

/-! ## Crypto facts: hash shape (for C8) -/

/-- A SHA-256 digest has 32 bytes. -/
theorem sha256_length (msg : List Nat) : (sha256 msg).length = 32 := by
  simp [sha256, wordBytesBE]

/-- Digest bytes are in u8 range. -/
theorem sha256_lt (msg : List Nat) : ∀ b ∈ sha256 msg, b < 256 := by
  intro b hb
  simp only [sha256, List.mem_flatMap] at hb
  obtain ⟨w, _, hw⟩ := hb
  simp only [wordBytesBE, List.mem_cons, List.not_mem_nil, or_false] at hw
  rcases hw with rfl | rfl | rfl | rfl <;> omega

/-- Each nibble maps to a lowercase hex digit. -/
theorem hexChar_mem : ∀ n, n < 16 → hexChar n ∈ ("0123456789abcdef").data := by
  decide

/-- Hex rendering doubles the length. -/
theorem hexOfBytes_length (bs : List Nat) : (hexOfBytes bs).length = 2 * bs.length := by
  induction bs with
  | nil => rfl
  | cons b rest ih =>
    show ([hexChar (b / 16), hexChar (b % 16)] ++ hexOfBytes rest).length = _
    simp [List.length_append, ih]
    omega

/-- Hex rendering of u8 bytes yields only lowercase hex digits. -/
theorem hexOfBytes_mem (bs : List Nat) (hbs : ∀ b ∈ bs, b < 256) :
    ∀ c ∈ hexOfBytes bs, c ∈ ("0123456789abcdef").data := by
  intro c hc
  simp only [hexOfBytes, List.mem_flatMap] at hc
  obtain ⟨b, hb, hcb⟩ := hc
  have h256 := hbs b hb
  simp only [List.mem_cons, List.not_mem_nil, or_false] at hcb
  rcases hcb with rfl | rfl
  · exact hexChar_mem _ (by omega)
  · exact hexChar_mem _ (by omega)

/-- The key hash is a 64-character lowercase hexadecimal string. -/
theorem generate_key_hash_shape (x : String) :
    (generate_key_hash x).length = 64 ∧
    ∀ c ∈ (generate_key_hash x).data, c ∈ ("0123456789abcdef").data := by
  constructor
  · have h : (generate_key_hash x).length =
        (hexOfBytes (sha256 (strToUtf8 x))).length := rfl
    rw [h, hexOfBytes_length, sha256_length]
  · intro c hc
    exact hexOfBytes_mem _ (sha256_lt _) c hc

/-! ## Crypto facts: UTF-8 round trip (for C8) -/

/-- UTF-8 bytes are in u8 range. -/
theorem utf8EncodeChar_lt (c : Char) : ∀ b ∈ utf8EncodeChar c, b < 256 := by
  have hv : c.toNat < 55296 ∨ 57343 < c.toNat ∧ c.toNat < 1114112 := c.valid
  intro b hb
  simp only [utf8EncodeChar] at hb
  split_ifs at hb with h1 h2 h3 <;>
    simp only [List.mem_cons, List.not_mem_nil, or_false] at hb
  · omega
  · rcases hb with rfl | rfl <;> omega
  · rcases hb with rfl | rfl | rfl <;> omega
  · rcases hb with rfl | rfl | rfl | rfl <;> omega

/-- Decoding with enough fuel inverts the flat encoding of a scalar list. -/
theorem utf8DecodeAux_encode (cs : List Char) :
    ∀ fuel : Nat, (cs.flatMap utf8EncodeChar).length ≤ fuel →
    utf8DecodeAux fuel (cs.flatMap utf8EncodeChar) = some cs := by
  induction cs with
  | nil =>
    intro fuel _
    cases fuel <;> rfl
  | cons c rest ih =>
    intro fuel hfuel
    have hv : c.toNat < 55296 ∨ 57343 < c.toNat ∧ c.toNat < 1114112 := c.valid
    have hofn : Char.ofNat c.toNat = c := Char.ofNat_toNat c
    rw [List.flatMap_cons] at hfuel ⊢
    by_cases h1 : c.toNat < 128
    · have he : utf8EncodeChar c = [c.toNat] := by simp [utf8EncodeChar, h1]
      rw [he, List.singleton_append] at hfuel ⊢
      obtain ⟨f, rfl⟩ : ∃ f, fuel = f + 1 :=
        ⟨fuel - 1, by simp only [List.length_cons] at hfuel; omega⟩
      have hone : utf8DecodeOne c.toNat (rest.flatMap utf8EncodeChar) =
          some (c.toNat, rest.flatMap utf8EncodeChar) := by
        simp [utf8DecodeOne, h1]
      simp only [utf8DecodeAux, hone]
      rw [ih f (by simp only [List.length_cons] at hfuel; omega), hofn]
      rfl
    · by_cases h2 : c.toNat < 2048
      · have he : utf8EncodeChar c = [192 + c.toNat / 64, 128 + c.toNat % 64] := by
          simp [utf8EncodeChar, h1, h2]
        rw [he, List.cons_append, List.cons_append, List.nil_append] at hfuel ⊢
        obtain ⟨f, rfl⟩ : ∃ f, fuel = f + 1 :=
          ⟨fuel - 1, by simp only [List.length_cons] at hfuel; omega⟩
        have ha : ¬ (192 + c.toNat / 64 < 128) := by omega
        have hb : ¬ (192 + c.toNat / 64 < 194) := by omega
        have hc : 192 + c.toNat / 64 < 224 := by omega
        have hd : 128 ≤ 128 + c.toNat % 64 ∧ 128 + c.toNat % 64 < 192 := by omega
        have harith : (192 + c.toNat / 64 - 192) * 64 + (128 + c.toNat % 64 - 128) =
            c.toNat := by omega
        have hone : utf8DecodeOne (192 + c.toNat / 64)
            ((128 + c.toNat % 64) :: rest.flatMap utf8EncodeChar) =
            some (c.toNat, rest.flatMap utf8EncodeChar) := by
          simp only [utf8DecodeOne, if_neg ha, if_neg hb, if_pos hc, if_pos hd]
          rw [harith]
        simp only [utf8DecodeAux, hone]
        rw [ih f (by simp only [List.length_cons] at hfuel; omega), hofn]
        rfl
      · by_cases h3 : c.toNat < 65536
        · have he : utf8EncodeChar c =
              [224 + c.toNat / 4096, 128 + c.toNat / 64 % 64, 128 + c.toNat % 64] := by
            simp [utf8EncodeChar, h1, h2, h3]
          rw [he, List.cons_append, List.cons_append, List.cons_append,
            List.nil_append] at hfuel ⊢
          obtain ⟨f, rfl⟩ : ∃ f, fuel = f + 1 :=
            ⟨fuel - 1, by simp only [List.length_cons] at hfuel; omega⟩
          have ha : ¬ (224 + c.toNat / 4096 < 128) := by omega
          have hb : ¬ (224 + c.toNat / 4096 < 194) := by omega
          have hc : ¬ (224 + c.toNat / 4096 < 224) := by omega
          have hd : 224 + c.toNat / 4096 < 240 := by omega
          have harith : (224 + c.toNat / 4096 - 224) * 4096 +
              (128 + c.toNat / 64 % 64 - 128) * 64 + (128 + c.toNat % 64 - 128) =
              c.toNat := by omega
          have hcond : (128 ≤ 128 + c.toNat / 64 % 64 ∧ 128 + c.toNat / 64 % 64 < 192) ∧
              (128 ≤ 128 + c.toNat % 64 ∧ 128 + c.toNat % 64 < 192) ∧
              2048 ≤ (224 + c.toNat / 4096 - 224) * 4096 +
                (128 + c.toNat / 64 % 64 - 128) * 64 + (128 + c.toNat % 64 - 128) ∧
              ((224 + c.toNat / 4096 - 224) * 4096 +
                (128 + c.toNat / 64 % 64 - 128) * 64 + (128 + c.toNat % 64 - 128) < 55296 ∨
               57343 < (224 + c.toNat / 4096 - 224) * 4096 +
                (128 + c.toNat / 64 % 64 - 128) * 64 + (128 + c.toNat % 64 - 128)) := by
            refine ⟨by omega, by omega, by omega, ?_⟩
            rw [harith]
            rcases hv with h | ⟨h, _⟩
            · exact Or.inl h
            · exact Or.inr h
          have hone : utf8DecodeOne (224 + c.toNat / 4096)
              ((128 + c.toNat / 64 % 64) :: (128 + c.toNat % 64) ::
                rest.flatMap utf8EncodeChar) =
              some (c.toNat, rest.flatMap utf8EncodeChar) := by
            simp only [utf8DecodeOne, if_neg ha, if_neg hb, if_neg hc, if_pos hd,
              if_pos hcond]
            rw [harith]
          simp only [utf8DecodeAux, hone]
          rw [ih f (by simp only [List.length_cons] at hfuel; omega), hofn]
          rfl
        · have hval : c.toNat < 1114112 := by
            rcases hv with h | ⟨_, h⟩
            · omega
            · exact h
          have he : utf8EncodeChar c =
              [240 + c.toNat / 262144, 128 + c.toNat / 4096 % 64,
               128 + c.toNat / 64 % 64, 128 + c.toNat % 64] := by
            simp [utf8EncodeChar, h1, h2, h3]
          rw [he, List.cons_append, List.cons_append, List.cons_append, List.cons_append,
            List.nil_append] at hfuel ⊢
          obtain ⟨f, rfl⟩ : ∃ f, fuel = f + 1 :=
            ⟨fuel - 1, by simp only [List.length_cons] at hfuel; omega⟩
          have ha : ¬ (240 + c.toNat / 262144 < 128) := by omega
          have hb : ¬ (240 + c.toNat / 262144 < 194) := by omega
          have hc : ¬ (240 + c.toNat / 262144 < 224) := by omega
          have hd : ¬ (240 + c.toNat / 262144 < 240) := by omega
          have hee : 240 + c.toNat / 262144 < 245 := by omega
          have harith : (240 + c.toNat / 262144 - 240) * 262144 +
              (128 + c.toNat / 4096 % 64 - 128) * 4096 +
              (128 + c.toNat / 64 % 64 - 128) * 64 + (128 + c.toNat % 64 - 128) =
              c.toNat := by omega
          have hcond : (128 ≤ 128 + c.toNat / 4096 % 64 ∧ 128 + c.toNat / 4096 % 64 < 192) ∧
              (128 ≤ 128 + c.toNat / 64 % 64 ∧ 128 + c.toNat / 64 % 64 < 192) ∧
              (128 ≤ 128 + c.toNat % 64 ∧ 128 + c.toNat % 64 < 192) ∧
              65536 ≤ (240 + c.toNat / 262144 - 240) * 262144 +
                (128 + c.toNat / 4096 % 64 - 128) * 4096 +
                (128 + c.toNat / 64 % 64 - 128) * 64 + (128 + c.toNat % 64 - 128) ∧
              (240 + c.toNat / 262144 - 240) * 262144 +
                (128 + c.toNat / 4096 % 64 - 128) * 4096 +
                (128 + c.toNat / 64 % 64 - 128) * 64 + (128 + c.toNat % 64 - 128) <
                1114112 := by
            exact ⟨by omega, by omega, by omega, by omega, by omega⟩
          have hone : utf8DecodeOne (240 + c.toNat / 262144)
              ((128 + c.toNat / 4096 % 64) :: (128 + c.toNat / 64 % 64) ::
                (128 + c.toNat % 64) :: rest.flatMap utf8EncodeChar) =
              some (c.toNat, rest.flatMap utf8EncodeChar) := by
            simp only [utf8DecodeOne, if_neg ha, if_neg hb, if_neg hc, if_neg hd,
              if_pos hee, if_pos hcond]
            rw [harith]
          simp only [utf8DecodeAux, hone]
          rw [ih f (by simp only [List.length_cons] at hfuel; omega), hofn]
          rfl

/-- Full UTF-8 round trip over a string's scalars. -/
theorem utf8Decode_strToUtf8 (s : String) : utf8Decode (strToUtf8 s) = some s.data := by
  exact utf8DecodeAux_encode s.data _ (le_refl _)

/-! ## Crypto facts: base64 round trip (for C8) -/

/-- The alphabet lookup inverts the symbol table. -/
theorem b64Val_b64Char : ∀ v, v < 64 → b64Val (b64Char v) = some v := by decide

/-- No alphabet symbol is the padding character. -/
theorem b64Char_ne_pad : ∀ v, v < 64 → ¬ (b64Char v = '=') := by decide

/-- Strict decoding inverts padded encoding on u8 byte lists. -/
theorem b64_roundtrip : ∀ bs : List Nat, (∀ b ∈ bs, b < 256) →
    b64DecodeChars (b64EncodeBytes bs) = some bs
  | [] => fun _ => rfl
  | [b0] => fun h => by
    have hb0 : b0 < 256 := h b0 (by simp)
    have h0 : b0 / 4 < 64 := by omega
    have h1 : b0 % 4 * 16 < 64 := by omega
    have hz : b0 % 4 * 16 % 16 = 0 := by omega
    have hrec : b0 / 4 * 4 + b0 % 4 * 16 / 16 = b0 := by omega
    show b64DecodeChars [b64Char (b0 / 4), b64Char (b0 % 4 * 16), '=', '='] = some [b0]
    simp only [b64DecodeChars, b64Val_b64Char _ h0, b64Val_b64Char _ h1]
    simp [hz]
    omega
  | [b0, b1] => fun h => by
    have hb0 : b0 < 256 := h b0 (by simp)
    have hb1 : b1 < 256 := h b1 (by simp)
    have h0 : b0 / 4 < 64 := by omega
    have h1 : b0 % 4 * 16 + b1 / 16 < 64 := by omega
    have h2 : b1 % 16 * 4 < 64 := by omega
    have hne : ¬ (b64Char (b1 % 16 * 4) = '=') := b64Char_ne_pad _ h2
    have hz : b1 % 16 * 4 % 4 = 0 := by omega
    have hrec0 : b0 / 4 * 4 + (b0 % 4 * 16 + b1 / 16) / 16 = b0 := by omega
    have hrec1 : (b0 % 4 * 16 + b1 / 16) % 16 * 16 + b1 % 16 * 4 / 4 = b1 := by omega
    show b64DecodeChars [b64Char (b0 / 4), b64Char (b0 % 4 * 16 + b1 / 16),
      b64Char (b1 % 16 * 4), '='] = some [b0, b1]
    simp only [b64DecodeChars, b64Val_b64Char _ h0, b64Val_b64Char _ h1,
      b64Val_b64Char _ h2, if_neg hne]
    simp [hz]
    omega
  | b0 :: b1 :: b2 :: rest => fun h => by
    have hb0 : b0 < 256 := h b0 (by simp)
    have hb1 : b1 < 256 := h b1 (by simp)
    have hb2 : b2 < 256 := h b2 (by simp)
    have ih := b64_roundtrip rest (fun b hb => h b (by simp [hb]))
    have h0 : b0 / 4 < 64 := by omega
    have h1 : b0 % 4 * 16 + b1 / 16 < 64 := by omega
    have h2 : b1 % 16 * 4 + b2 / 64 < 64 := by omega
    have h3 : b2 % 64 < 64 := by omega
    have hne2 : ¬ (b64Char (b1 % 16 * 4 + b2 / 64) = '=') := b64Char_ne_pad _ h2
    have hne3 : ¬ (b64Char (b2 % 64) = '=') := b64Char_ne_pad _ h3
    have hrec0 : b0 / 4 * 4 + (b0 % 4 * 16 + b1 / 16) / 16 = b0 := by omega
    have hrec1 : (b0 % 4 * 16 + b1 / 16) % 16 * 16 + (b1 % 16 * 4 + b2 / 64) / 4 = b1 := by
      omega
    have hrec2 : (b1 % 16 * 4 + b2 / 64) % 4 * 64 + b2 % 64 = b2 := by omega
    show b64DecodeChars (b64Char (b0 / 4) :: b64Char (b0 % 4 * 16 + b1 / 16) ::
      b64Char (b1 % 16 * 4 + b2 / 64) :: b64Char (b2 % 64) :: b64EncodeBytes rest) =
      some (b0 :: b1 :: b2 :: rest)
    simp only [b64DecodeChars, b64Val_b64Char _ h0, b64Val_b64Char _ h1,
      b64Val_b64Char _ h2, b64Val_b64Char _ h3, if_neg hne2, if_neg hne3, ih]
    simp
    omega

/-! ## Crypto facts: CTR/GCM round trip (for C8) -/

/-- An AES block output has 16 bytes. -/
theorem aesEncryptBlock_length (key block : List Nat) :
    (aesEncryptBlock key block).length = 16 := by
  simp [aesEncryptBlock]

/-- AES block output bytes (and the out-of-range default) are below 256. -/
theorem aesEncryptBlock_getD_lt (key block : List Nat) (j : Nat) :
    (aesEncryptBlock key block).getD j 0 < 256 := by
  by_cases hj : j < 16
  · have hl : j < (aesEncryptBlock key block).length := by
      rw [aesEncryptBlock_length]; exact hj
    rw [List.getD_eq_getElem _ _ hl]
    simp only [aesEncryptBlock, List.getElem_ofFn]
    omega
  · have hl : (aesEncryptBlock key block).length ≤ j := by
      rw [aesEncryptBlock_length]; omega
    rw [List.getD_eq_getElem?_getD, List.getElem?_eq_none hl]
    simp

/-- Keystream bytes are below 256. -/
theorem ctrKeystream_lt (key nb : List Nat) (n : Nat) :
    ∀ b ∈ ctrKeystream key nb n, b < 256 := by
  intro b hb
  rw [ctrKeystream, List.mem_ofFn] at hb
  obtain ⟨i, rfl⟩ := hb
  exact aesEncryptBlock_getD_lt _ _ _

/-- CTR mode preserves length. -/
theorem ctrCrypt_length (key nb data : List Nat) :
    (ctrCrypt key nb data).length = data.length := by
  simp [ctrCrypt, ctrKeystream, List.length_zipWith]

/-- XOR-ing twice with the same (long enough) keystream is the identity. -/
theorem zipWith_xor_cancel : ∀ (data ks : List Nat), data.length ≤ ks.length →
    List.zipWith (fun p k => p ^^^ k) (List.zipWith (fun p k => p ^^^ k) data ks) ks =
      data := by
  intro data
  induction data with
  | nil => intro ks _; simp
  | cons p ps ih =>
    intro ks hlen
    cases ks with
    | nil => simp at hlen
    | cons k kk =>
      simp only [List.zipWith_cons_cons]
      rw [Nat.xor_cancel_right, ih kk (by simpa using hlen)]

/-- CTR decryption inverts CTR encryption. -/
theorem ctrCrypt_inverse (key nb pt : List Nat) :
    ctrCrypt key nb (ctrCrypt key nb pt) = pt := by
  have h1 : (ctrCrypt key nb pt).length = pt.length := ctrCrypt_length key nb pt
  conv_lhs => rw [ctrCrypt, h1]
  rw [ctrCrypt]
  exact zipWith_xor_cancel pt (ctrKeystream key nb pt.length)
    (by simp [ctrKeystream])

/-- A GCM tag has 16 bytes. -/
theorem gcmTag_length (key nb ct : List Nat) : (gcmTag key nb ct).length = 16 := by
  simp [gcmTag, natToBytes16]

/-- Tag bytes are below 256. -/
theorem natToBytes16_lt (n : Nat) : ∀ b ∈ natToBytes16 n, b < 256 := by
  intro b hb
  rw [natToBytes16, List.mem_ofFn] at hb
  obtain ⟨i, rfl⟩ := hb
  show n / 2 ^ (8 * (15 - i.val)) % 256 < 256
  omega

/-- GCM output length: ciphertext plus 16-byte tag. -/
theorem gcmEncrypt_length (key nb pt : List Nat) :
    (gcmEncrypt key nb pt).length = pt.length + 16 := by
  simp [gcmEncrypt, ctrCrypt_length, gcmTag_length]

/-- GCM output bytes are below 256 when the plaintext bytes are. -/
theorem gcmEncrypt_lt (key nb pt : List Nat) (hpt : ∀ b ∈ pt, b < 256) :
    ∀ b ∈ gcmEncrypt key nb pt, b < 256 := by
  intro b hb
  rw [gcmEncrypt, List.mem_append] at hb
  rcases hb with hb | hb
  · rw [ctrCrypt, List.mem_iff_getElem] at hb
    obtain ⟨i, hil, rfl⟩ := hb
    rw [List.getElem_zipWith]
    have hi1 : i < pt.length := by
      have := hil
      simp only [List.length_zipWith] at this
      omega
    have hp : pt[i] < 2 ^ 8 := hpt _ (List.getElem_mem hi1)
    have hik : i < (ctrKeystream key nb pt.length).length := by
      rw [ctrKeystream, List.length_ofFn]; exact hi1
    have hk : (ctrKeystream key nb pt.length)[i] < 2 ^ 8 := by
      apply ctrKeystream_lt key nb pt.length
      exact List.getElem_mem _
    exact Nat.xor_lt_two_pow hp hk
  · exact natToBytes16_lt _ b hb

/-- AES-256-GCM decryption inverts encryption. -/
theorem gcm_roundtrip (key nb pt : List Nat) :
    gcmDecrypt key nb (gcmEncrypt key nb pt) = some pt := by
  have htag : (gcmTag key nb (ctrCrypt key nb pt)).length = 16 := gcmTag_length _ _ _
  have hlen : (gcmEncrypt key nb pt).length = pt.length + 16 := gcmEncrypt_length _ _ _
  have hnot : ¬ ((gcmEncrypt key nb pt).length < 16) := by omega
  rw [gcmDecrypt, if_neg hnot]
  have hct2 : (ctrCrypt key nb pt ++ gcmTag key nb (ctrCrypt key nb pt)).length - 16 =
      (ctrCrypt key nb pt).length := by
    rw [List.length_append, htag]
    omega
  conv_lhs => rw [gcmEncrypt]
  rw [hct2, List.take_left, List.drop_left, if_pos rfl, ctrCrypt_inverse]

/-! ## Crypto facts: claim C8 -/

/-- Claim C8: for every API-key string and every 12-byte nonce,
`decrypt_api_key` inverts `encrypt_api_key` exactly, and
`generate_key_hash` yields a 64-character lowercase hexadecimal string. -/
theorem crypto_roundtrip_and_hash (x : String) (nonce : Fin 12 → Fin 256) :
    decrypt_api_key (encrypt_api_key x nonce) = .ok x ∧
    (generate_key_hash x).length = 64 ∧
    (∀ c ∈ (generate_key_hash x).data, c ∈ ("0123456789abcdef").data) := by
  refine ⟨?_, (generate_key_hash_shape x).1, (generate_key_hash_shape x).2⟩
  have hpt : ∀ b ∈ strToUtf8 x, b < 256 := by
    intro b hb
    rw [strToUtf8, List.mem_flatMap] at hb
    obtain ⟨c, _, hbc⟩ := hb
    exact utf8EncodeChar_lt c b hbc
  have hnb : ∀ b ∈ List.ofFn (fun i => (nonce i).val), b < 256 := by
    intro b hb
    rw [List.mem_ofFn] at hb
    obtain ⟨i, rfl⟩ := hb
    exact (nonce i).isLt
  have hall : ∀ b ∈ List.ofFn (fun i => (nonce i).val) ++
      gcmEncrypt encryptionKey (List.ofFn (fun i => (nonce i).val)) (strToUtf8 x),
      b < 256 := by
    intro b hb
    rcases List.mem_append.mp hb with h | h
    · exact hnb b h
    · exact gcmEncrypt_lt _ _ _ hpt b h
  have hb64 := b64_roundtrip _ hall
  have hmkdata : ∀ cs : List Char, (String.mk cs).data = cs := fun _ => rfl
  rw [encrypt_api_key, decrypt_api_key]
  rw [hmkdata, hb64]
  have hlen2 : (List.ofFn (fun i => (nonce i).val) ++
      gcmEncrypt encryptionKey (List.ofFn (fun i => (nonce i).val)) (strToUtf8 x)).length =
      12 + ((strToUtf8 x).length + 16) := by
    simp [gcmEncrypt_length]
    omega
  have hnot12 : ¬ ((List.ofFn (fun i => (nonce i).val) ++
      gcmEncrypt encryptionKey (List.ofFn (fun i => (nonce i).val))
        (strToUtf8 x)).length < 12) := by omega
  simp only [if_neg hnot12]
  rw [List.take_left' (by simp), List.drop_left' (by simp)]
  simp only [gcm_roundtrip, utf8Decode_strToUtf8]

end Gateway

